import Mathlib

/-!
Verification of the trading execution and resilience core of the pythia
backend: the atomic trading engine, the stop-loss manager, the circuit
breaker, the saga coordinator, the event bus, the multi-asset orchestrator
and the arbitrage detector, embedded shallowly over the rationals.

Python numeric conventions used throughout the embedding:
a Python Decimal is an exact rational together with the default decimal
context, which rounds every arithmetic result to 28 significant digits,
half to even; a float store rounds to the nearest binary64 value, half to
even, in the normal range (all values this development evaluates are
normal, finite binary64 values); reading a stored float back through
Decimal and str yields the decimal with the fewest significant digits
that casts back to the same binary64 value, which is the CPython repr.
A rational argument passed to an embedded function stands for the decimal
value Decimal(str(x)) of the float x the Python caller passed, so literal
call sites carry their literal decimal values.
-/

attribute [local semireducible] Rat.mul Rat.add Rat.sub Rat.inv

namespace Pythia

/-- Truncated base-b logarithm with explicit fuel, structurally recursive so
that the kernel can evaluate it on concrete inputs. -/
def natLogAux (b : ℕ) : ℕ → ℕ → ℕ
  | 0, _ => 0
  | fuel + 1, n => if n < b then 0 else natLogAux b fuel (n / b) + 1

/-- Truncated base-b logarithm, with fuel covering every magnitude this
development evaluates. -/
def natLogB (b n : ℕ) : ℕ := natLogAux b 200 n

/-- Integer power of two over the rationals. -/
def qpow2 : ℤ → ℚ
  | Int.ofNat n => (2 : ℚ) ^ n
  | Int.negSucc n => 1 / (2 : ℚ) ^ (n + 1)

/-- Integer power of ten over the rationals. -/
def qpow10 : ℤ → ℚ
  | Int.ofNat n => (10 : ℚ) ^ n
  | Int.negSucc n => 1 / (10 : ℚ) ^ (n + 1)

/-- Round a rational to an integer, half to even: the rounding mode of both
binary64 arithmetic and the default decimal context. -/
def rhe (q : ℚ) : ℤ :=
  let n := q.floor
  let r := q - n
  if r < 1 / 2 then n
  else if 1 / 2 < r then n + 1
  else if n % 2 = 0 then n else n + 1

/-- Round a rational to an integer, half up: the decimal ROUND_HALF_UP mode
on the nonnegative inputs the validators accept. -/
def rhu (q : ℚ) : ℤ := (q + 1 / 2).floor

/-- Floor of the base-2 logarithm of a positive rational. -/
def ilog2q (q : ℚ) : ℤ :=
  let c : ℤ := (natLogB 2 q.num.natAbs : ℤ) - (natLogB 2 q.den : ℤ)
  if q < qpow2 c then c - 1 else c

/-- Floor of the base-10 logarithm of a positive rational. -/
def ilog10q (q : ℚ) : ℤ :=
  let c : ℤ := (natLogB 10 q.num.natAbs : ℤ) - (natLogB 10 q.den : ℤ)
  if q < qpow10 c then c - 1 else c

/-- Nearest binary64 value of a rational, round half to even: the value a
CPython float cast produces in the normal range. -/
def floatOfRat (q : ℚ) : ℚ :=
  if q = 0 then 0
  else
    let a := |q|
    let k := ilog2q a - 52
    let f := (rhe (a / qpow2 k) : ℚ) * qpow2 k
    if q < 0 then -f else f

/-- Round a rational to d significant decimal digits, half to even: the
rounding the decimal context applies to every arithmetic result. -/
def roundSig (d : ℕ) (q : ℚ) : ℚ :=
  if q = 0 then 0
  else
    let a := |q|
    let s := (d : ℤ) - 1 - ilog10q a
    let f := (rhe (a * qpow10 s) : ℚ) / qpow10 s
    if q < 0 then -f else f

/-- Rounding of the default decimal context: 28 significant digits. -/
def round28 (q : ℚ) : ℚ := roundSig 28 q

/-- Value of Decimal(str(x)) for a binary64 value x: the decimal with the
fewest significant digits that casts back to the same binary64 value, the
CPython shortest repr.  Seventeen digits always suffice for a binary64
value, so the fallback branch is never reached on actual float values. -/
def pyRepr (f : ℚ) : ℚ :=
  match (List.range 17).findSome? (fun i =>
      let c := roundSig (i + 1) f
      if floatOfRat c = f then some c else none) with
  | some c => c
  | none => f

/-- Decimal addition under the default context. -/
def dAdd (a b : ℚ) : ℚ := round28 (a + b)

/-- Decimal subtraction under the default context. -/
def dSub (a b : ℚ) : ℚ := round28 (a - b)

/-- Decimal multiplication under the default context. -/
def dMul (a b : ℚ) : ℚ := round28 (a * b)

/-- Decimal division under the default context. -/
def dDiv (a b : ℚ) : ℚ := round28 (a / b)

/-- Decimal quantize to two fractional digits, ROUND_HALF_UP: price
precision. -/
def quantize2 (q : ℚ) : ℚ := (rhu (q * 100) : ℚ) / 100

/-- Decimal quantize to four fractional digits, ROUND_HALF_UP: quantity
precision. -/
def quantize4 (q : ℚ) : ℚ := (rhu (q * 10000) : ℚ) / 10000

/-- PriceValidator.validate from pythia.core.validators: positive, within
bounds, quantized to two fractional digits. -/
def PriceValidator.validate (price : ℚ) : Except String ℚ :=
  if price ≤ 0 then Except.error "Price must be positive"
  else if price < 1 / 100 then Except.error "Price below minimum"
  else if price > 1000000 then Except.error "Price exceeds maximum"
  else Except.ok (quantize2 price)

/-- QuantityValidator.validate from pythia.core.validators. -/
def QuantityValidator.validate (quantity : ℚ) : Except String ℚ :=
  if quantity ≤ 0 then Except.error "Quantity must be positive"
  else if quantity < 1 / 10000 then Except.error "Quantity below minimum"
  else if quantity > 1000000 then Except.error "Quantity exceeds maximum"
  else Except.ok (quantize4 quantity)

/-- SymbolValidator.validate from pythia.core.validators: strip, upcase,
alphanumeric, at most ten characters, implemented over the character list
so that concrete runs evaluate.  An all-whitespace symbol fails the
alphanumeric test, as the empty string does in Python. -/
def SymbolValidator.validate (symbol : String) : Except String String :=
  if symbol.data.length = 0 then Except.error "Symbol is required"
  else
    let stripped := (((symbol.data.dropWhile Char.isWhitespace).reverse.dropWhile
      Char.isWhitespace).reverse).map Char.toUpper
    if stripped.length = 0 then Except.error "Symbol must be alphanumeric"
    else if ¬ stripped.all Char.isAlphanum then Except.error "Symbol must be alphanumeric"
    else if stripped.length > 10 then Except.error "Symbol too long"
    else Except.ok (String.mk stripped)

/-- PredictionMarket entity from pythia.domain.markets.prediction_market. -/
structure PredictionMarket where
  market_id : String
  description : String
  yes_price : ℚ
  no_price : ℚ
  platform : String
  volume : ℚ
deriving Repr, DecidableEq

/-- One arbitrage opportunity dictionary. -/
structure ArbOpportunity where
  cost : ℚ
  profit : ℚ
  roi : ℚ
  strategy : String
deriving Repr, DecidableEq

/-- Python max over a nonempty list keyed by roi: the first element of
maximal key is returned, a later element replaces the accumulator only when
its key is strictly greater. -/
def maxByRoi (x : ArbOpportunity) (xs : List ArbOpportunity) : ArbOpportunity :=
  xs.foldl (fun acc y => if acc.roi < y.roi then y else acc) x

/-- PredictionMarket.arbitrage_opportunity: evaluate both complementary
directions against the other market and return the better one when either
costs under one.  The prices are binary64 floats and each arithmetic
operation (the cost sum, the profit subtraction, the roi division) rounds
its exact result to the nearest binary64 value, so every stored number is
wrapped in floatOfRat exactly as the interpreter rounds it. -/
def PredictionMarket.arbitrage_opportunity (self other : PredictionMarket) :
    Option ArbOpportunity :=
  let forwardCost := floatOfRat (self.yes_price + other.no_price)
  let reverseCost := floatOfRat (self.no_price + other.yes_price)
  let opportunities :=
    (if forwardCost < 1 then
      let forwardProfit := floatOfRat (1 - forwardCost)
      [ArbOpportunity.mk forwardCost forwardProfit
        (floatOfRat (forwardProfit / forwardCost))
        ("BUY YES on " ++ self.platform ++ ", BUY NO on " ++ other.platform)]
     else []) ++
    (if reverseCost < 1 then
      let reverseProfit := floatOfRat (1 - reverseCost)
      [ArbOpportunity.mk reverseCost reverseProfit
        (floatOfRat (reverseProfit / reverseCost))
        ("BUY NO on " ++ self.platform ++ ", BUY YES on " ++ other.platform)]
     else [])
  match opportunities with
  | [] => none
  | x :: xs => some (maxByRoi x xs)

/-- TradingSignal value from pythia.core.ports, with the asset class kept as
its registry key string. -/
structure TradingSignal where
  action : String
  confidence : ℚ
  pair : String
  reasoning : String
  asset_class : String
deriving Repr, DecidableEq

/-- Adapter method invoked by the orchestrator, recorded in call order. -/
inductive AdapterCall
  | isMarketOpen
  | placeOrder
deriving Repr, DecidableEq

/-- Observable behavior of one registered trading adapter for one signal. -/
structure AdapterBehavior where
  market_open : Bool
  fill_price : ℚ
  fill_pnl : ℚ
deriving Repr, DecidableEq

/-- Result of execute_signal together with the adapter methods invoked. -/
structure ExecOutcome where
  status : String
  calls : List AdapterCall
deriving Repr, DecidableEq

/-- MultiAssetOrchestrator.execute_signal: gate on HOLD and on the
confidence threshold before any adapter lookup, fail fast on a missing
adapter, defer when the market is closed, place the order otherwise. -/
def execute_signal (min_confidence : ℚ)
    (trading_ports : List (String × AdapterBehavior)) (signal : TradingSignal) :
    Except String ExecOutcome :=
  if signal.action = "HOLD" then Except.ok ⟨"hold", []⟩
  else if signal.confidence < min_confidence then Except.ok ⟨"skipped", []⟩
  else
    match trading_ports.lookup signal.asset_class with
    | none => Except.error ("No trading adapter registered for " ++ signal.asset_class)
    | some port =>
      if port.market_open = false then Except.ok ⟨"deferred", [AdapterCall.isMarketOpen]⟩
      else Except.ok ⟨"executed", [AdapterCall.isMarketOpen, AdapterCall.placeOrder]⟩

/-- One saga step: its name and whether its action and its compensation
raise, carrying the message they raise with. -/
structure SagaStep where
  name : String
  action_error : Option String
  comp_error : Option String
deriving Repr, DecidableEq

/-- Invocation recorded while a saga runs. -/
inductive SagaEvent
  | action (name : String)
  | comp (name : String)
deriving Repr, DecidableEq

/-- Distinguishable saga failure wrapping the original step failure. -/
structure SagaError where
  message : String
deriving Repr, DecidableEq

/-- Compensation sweep of SagaCoordinator: the compensation of every
completed step is attempted, most recent first, and a compensation that
raises is reported and swallowed, so every one is still invoked. -/
def sagaCompensate (completedRev : List SagaStep) : List SagaEvent :=
  completedRev.map (fun s => SagaEvent.comp s.name)

/-- Body of SagaCoordinator.execute: run actions in order, tracking the
completed steps (most recent first); on the first action failure compensate
the completed steps in reverse order and raise a SagaError wrapping the
original failure. -/
def sagaExecAux : List SagaStep → List SagaStep → List SagaEvent →
    List SagaEvent × Except SagaError Unit
  | [], _, trace => (trace.reverse, Except.ok ())
  | s :: rest, completed, trace =>
    match s.action_error with
    | none => sagaExecAux rest (s :: completed) (SagaEvent.action s.name :: trace)
    | some m =>
      ((SagaEvent.action s.name :: trace).reverse ++ sagaCompensate completed,
        Except.error ⟨"Saga failed: " ++ m⟩)

/-- SagaCoordinator.execute on a fresh coordinator. -/
def SagaCoordinator.execute (steps : List SagaStep) :
    List SagaEvent × Except SagaError Unit :=
  sagaExecAux steps [] []

/-- Circuit breaker states. -/
inductive CBState
  | CLOSED
  | OPEN
  | HALF_OPEN
deriving Repr, DecidableEq

/-- Outcome the wrapped function would produce if invoked. -/
inductive CallOutcome
  | ok
  | error
deriving Repr, DecidableEq

/-- Observable result of one guarded call: rejected means the breaker raised
CircuitBreakerOpenError without invoking the wrapped function; returned and
raised mean the function was invoked and returned or raised. -/
inductive CallResult
  | rejected
  | returned
  | raised
deriving Repr, DecidableEq

/-- State of pythia.core.circuit_breaker.CircuitBreaker.  The wall clock is
passed explicitly: each guarded call carries the time at which it happens. -/
structure CircuitBreaker where
  failure_threshold : ℕ
  recovery_timeout : ℚ
  state : CBState
  failures : ℕ
  last_failure_time : ℚ
deriving Repr, DecidableEq

/-- Freshly constructed breaker. -/
def CircuitBreaker.init (ft : ℕ) (rt : ℚ) : CircuitBreaker :=
  ⟨ft, rt, CBState.CLOSED, 0, 0⟩

/-- CircuitBreaker._check_state: transition OPEN to HALF_OPEN once the
recovery timeout has strictly elapsed since the last failure. -/
def CircuitBreaker.check_state (cb : CircuitBreaker) (now : ℚ) : CircuitBreaker :=
  if cb.state = CBState.OPEN ∧ cb.recovery_timeout < now - cb.last_failure_time then
    { cb with state := CBState.HALF_OPEN }
  else cb

/-- CircuitBreaker._record_failure: increment the counter, stamp the time,
trip to OPEN from CLOSED at the threshold or from HALF_OPEN immediately. -/
def CircuitBreaker.record_failure (cb : CircuitBreaker) (now : ℚ) : CircuitBreaker :=
  let cb1 := { cb with failures := cb.failures + 1, last_failure_time := now }
  if cb1.state = CBState.CLOSED ∧ cb1.failure_threshold ≤ cb1.failures then
    { cb1 with state := CBState.OPEN }
  else if cb1.state = CBState.HALF_OPEN then { cb1 with state := CBState.OPEN }
  else cb1

/-- CircuitBreaker._reset: back to CLOSED with the failure counter cleared. -/
def CircuitBreaker.reset (cb : CircuitBreaker) : CircuitBreaker :=
  { cb with state := CBState.CLOSED, failures := 0 }

/-- One guarded call through the decorator wrapper: check the state, reject
while OPEN, otherwise invoke the wrapped function; a success while HALF_OPEN
resets the breaker, a failure is recorded and re-raised. -/
def CircuitBreaker.call (cb : CircuitBreaker) (now : ℚ) (outcome : CallOutcome) :
    CircuitBreaker × CallResult :=
  let cb1 := cb.check_state now
  if cb1.state = CBState.OPEN then (cb1, CallResult.rejected)
  else
    match outcome with
    | CallOutcome.ok =>
      if cb1.state = CBState.HALF_OPEN then (cb1.reset, CallResult.returned)
      else (cb1, CallResult.returned)
    | CallOutcome.error => (cb1.record_failure now, CallResult.raised)

/-- Run a sequence of guarded calls, each given as a time and the outcome
the wrapped function would produce. -/
def CircuitBreaker.runTrace : CircuitBreaker → List (ℚ × CallOutcome) → CircuitBreaker
  | cb, [] => cb
  | cb, (t, o) :: rest => CircuitBreaker.runTrace (cb.call t o).1 rest

/-- Number of failing outcomes in a call trace. -/
def errCount (trace : List (ℚ × CallOutcome)) : ℕ :=
  (trace.filter (fun x => x.2 == CallOutcome.error)).length

/-- Modelled from the claim for comparison with the code: a breaker whose
configuration carries a success threshold, where only that many consecutive
successes in HALF_OPEN close the breaker, and where the failure counter
counts consecutive failures, a success while CLOSED clearing it. -/
structure SpecBreaker where
  failure_threshold : ℕ
  recovery_timeout : ℚ
  success_threshold : ℕ
  state : CBState
  failures : ℕ
  successes : ℕ
  last_failure_time : ℚ
deriving Repr, DecidableEq

/-- Freshly constructed breaker of the claimed machine. -/
def SpecBreaker.init (ft : ℕ) (rt : ℚ) (st : ℕ) : SpecBreaker :=
  ⟨ft, rt, st, CBState.CLOSED, 0, 0, 0⟩

/-- One guarded call of the machine the claim describes. -/
def SpecBreaker.call (cb : SpecBreaker) (now : ℚ) (o : CallOutcome) :
    SpecBreaker × CallResult :=
  if cb.state = CBState.OPEN ∧ ¬ cb.recovery_timeout < now - cb.last_failure_time then
    (cb, CallResult.rejected)
  else
    let cb1 := if cb.state = CBState.OPEN then { cb with state := CBState.HALF_OPEN } else cb
    match o with
    | CallOutcome.ok =>
      match cb1.state with
      | CBState.HALF_OPEN =>
        if cb1.success_threshold ≤ cb1.successes + 1 then
          ({ cb1 with state := CBState.CLOSED, failures := 0, successes := 0 },
            CallResult.returned)
        else ({ cb1 with successes := cb1.successes + 1 }, CallResult.returned)
      | _ => ({ cb1 with failures := 0 }, CallResult.returned)
    | CallOutcome.error =>
      match cb1.state with
      | CBState.HALF_OPEN =>
        ({ cb1 with state := CBState.OPEN, successes := 0, last_failure_time := now },
          CallResult.raised)
      | _ =>
        let cb2 := { cb1 with failures := cb1.failures + 1, last_failure_time := now }
        if cb2.failure_threshold ≤ cb2.failures then
          ({ cb2 with state := CBState.OPEN }, CallResult.raised)
        else (cb2, CallResult.raised)

/-- Run a call trace through the claimed machine. -/
def SpecBreaker.runTrace : SpecBreaker → List (ℚ × CallOutcome) → SpecBreaker
  | cb, [] => cb
  | cb, (t, o) :: rest => SpecBreaker.runTrace (cb.call t o).1 rest

/-- Domain event carried by the bus; the payload is kept abstract as one
integer. -/
structure Event where
  type : String
  payload : ℤ
deriving Repr, DecidableEq

/-- Observable log of one dispatch: which handlers were invoked (by index,
in order), the results the successful ones returned, and one report per
failing handler and registered error handler. -/
structure DispatchLog where
  invoked : List ℕ
  results : List ℤ
  reports : List (ℕ × ℕ × String)
deriving Repr, DecidableEq

/-- Loop body of AsyncEventBus._dispatch: every subscribed handler is
invoked; a handler exception is caught and reported to every registered
error handler, then dispatch continues with the remaining handlers.
Exceptions raised by error handlers themselves are swallowed, so the
reports record only the notification. -/
def dispatchAux (e : Event) (ehCount : ℕ) :
    List (ℕ × (Event → Except String ℤ)) → DispatchLog → DispatchLog
  | [], log => log
  | (i, h) :: rest, log =>
    match h e with
    | Except.ok r =>
      dispatchAux e ehCount rest ⟨log.invoked ++ [i], log.results ++ [r], log.reports⟩
    | Except.error m =>
      dispatchAux e ehCount rest
        ⟨log.invoked ++ [i], log.results,
          log.reports ++ (List.range ehCount).map (fun j => (i, j, m))⟩

/-- AsyncEventBus._dispatch over the handlers subscribed to the type of the
event, with ehCount registered error handlers. -/
def AsyncEventBus.dispatch (handlers : List (Event → Except String ℤ)) (ehCount : ℕ)
    (e : Event) : DispatchLog :=
  dispatchAux e ehCount handlers.enum ⟨[], [], []⟩

/-- AsyncEventBus._worker draining a queue of published events: dispatch is
total because every handler exception is caught inside it, so the loop
processes every queued event in order. -/
def AsyncEventBus.runWorker (handlers : List (Event → Except String ℤ)) (ehCount : ℕ)
    (events : List Event) : List DispatchLog :=
  events.map (AsyncEventBus.dispatch handlers ehCount)

/-- Portfolio row.  The monetary columns hold the binary64 values Python
stored through float casts. -/
structure PortfolioR where
  id : ℕ
  balance : ℚ
  total_value : ℚ
deriving Repr, DecidableEq

/-- Position row.  The exit date column, a wall-clock timestamp, is not
modelled; the claims here never read it. -/
structure PositionR where
  id : ℕ
  portfolio_id : ℕ
  symbol : String
  quantity : ℚ
  average_price : ℚ
  current_price : ℚ
  stop_loss_price : Option ℚ
  take_profit_price : Option ℚ
  trailing_stop_pct : Option ℚ
  status : String
  exit_price : Option ℚ
  exit_reason : Option String
deriving Repr, DecidableEq

/-- Trade row: the immutable fill record. -/
structure TradeR where
  portfolio_id : ℕ
  symbol : String
  side : String
  quantity : ℚ
  price : ℚ
  pnl : Option ℚ
deriving Repr, DecidableEq

/-- Database state for one portfolio, the serialization unit of the engine:
queries scoped to another portfolio id find nothing. -/
structure DB where
  portfolio : PortfolioR
  positions : List PositionR
  trades : List TradeR
  next_position_id : ℕ
deriving Repr, DecidableEq

/-- Transactional session: pending is the in-session view that mutations
act on, commit publishes it, rollback restores it from the committed
state. -/
structure Session where
  committed : DB
  pending : DB
deriving Repr, DecidableEq

/-- Structured trading error carrying its code. -/
structure TradingError where
  code : String
  message : String
deriving Repr, DecidableEq

/-- EnhancedTradingEngine configuration, the values its constructor reads
from the settings object. -/
structure EnhancedTradingEngine where
  min_balance : ℚ
  max_position_size : ℚ
  risk_per_trade : ℚ
  max_positions : ℕ
deriving Repr, DecidableEq

/-- First open position of a portfolio for a symbol. -/
def DB.openPosition (db : DB) (pid : ℕ) (symbol : String) : Option PositionR :=
  db.positions.find? (fun p =>
    (p.portfolio_id == pid) && (p.symbol == symbol) && (p.status == "open"))

/-- Number of open positions of a portfolio. -/
def DB.openPositionCount (db : DB) (pid : ℕ) : ℕ :=
  (db.positions.filter (fun p => (p.portfolio_id == pid) && (p.status == "open"))).length

/-- EnhancedTradingEngine.validate_trade: side, validators, portfolio
lookup, balance floor, position-size limit, open-position ceiling for a new
symbol, and sufficient shares on sell, all checked before any mutation. -/
def EnhancedTradingEngine.validate_trade (eng : EnhancedTradingEngine) (db : DB)
    (portfolio_id : ℕ) (symbol side : String) (quantity price : ℚ) : Bool × String :=
  if side ≠ "buy" ∧ side ≠ "sell" then (false, "Invalid side")
  else
    match SymbolValidator.validate symbol with
    | Except.error m => (false, m)
    | Except.ok sym =>
    match PriceValidator.validate price with
    | Except.error m => (false, m)
    | Except.ok price_decimal =>
    match QuantityValidator.validate quantity with
    | Except.error m => (false, m)
    | Except.ok quantity_decimal =>
    if db.portfolio.id ≠ portfolio_id then (false, "Portfolio not found")
    else
      let balance := pyRepr db.portfolio.balance
      if side = "buy" then
        let total_cost := dMul quantity_decimal price_decimal
        if balance < total_cost then (false, "Insufficient balance")
        else if dSub balance total_cost < eng.min_balance then
          (false, "Trade would violate minimum balance")
        else
          let portfolio_value := pyRepr db.portfolio.total_value
          let max_position_value := dMul portfolio_value eng.max_position_size
          if max_position_value < total_cost then (false, "Position size exceeds limit")
          else
            match db.openPosition portfolio_id sym with
            | some _ => (true, "OK")
            | none =>
              if eng.max_positions ≤ db.openPositionCount portfolio_id then
                (false, "Maximum positions limit reached")
              else (true, "OK")
      else
        match db.openPosition portfolio_id sym with
        | none => (false, "No position found")
        | some position =>
          if pyRepr position.quantity < quantity_decimal then (false, "Insufficient shares")
          else (true, "OK")

/-- Injected exception site inside the critical section of execute_trade. -/
inductive FailPoint
  | afterLock
  | afterBalance
  | afterUpsert
  | afterTotalValue
  | afterTradeAdd
deriving Repr, DecidableEq

/-- Successful execute_trade payload: the trade dictionary and the
portfolio figures read back from the session. -/
structure TradeResult where
  trade_symbol : String
  trade_side : String
  trade_quantity : ℚ
  trade_price : ℚ
  trade_pnl : Option ℚ
  portfolio_balance : ℚ
  portfolio_total_value : ℚ
deriving Repr, DecidableEq

/-- Balance update inside the critical section: Decimal arithmetic on the
repr of the stored balance, the result stored back through a float cast. -/
def tradeStepBalance (db : DB) (side : String) (quantity_decimal price_decimal : ℚ) : DB :=
  let balance := pyRepr db.portfolio.balance
  let amount := dMul quantity_decimal price_decimal
  let newBalance := if side = "buy" then dSub balance amount else dAdd balance amount
  { db with portfolio := { db.portfolio with balance := floatOfRat newBalance } }

/-- Binary64 value of the closing epsilon literal of the engine. -/
def closedEpsilon : ℚ := floatOfRat (1 / 10000)

/-- Protective stop prices set on a buy: Python treats a missing or zero
percentage as falsy and skips the assignment. -/
def applyProtectiveStops (p : PositionR) (price_decimal : ℚ)
    (stop_loss_pct take_profit_pct : Option ℚ) : PositionR :=
  let slPrice := some (floatOfRat (dMul price_decimal (dSub 1 (stop_loss_pct.getD 0))))
  let tpPrice := some (floatOfRat (dMul price_decimal (dAdd 1 (take_profit_pct.getD 0))))
  let p1 := if stop_loss_pct.getD 0 ≠ 0 then { p with stop_loss_price := slPrice } else p
  if take_profit_pct.getD 0 ≠ 0 then { p1 with take_profit_price := tpPrice } else p1

/-- Position upsert inside the critical section.  On a buy into an existing
open position the quantity and the volume-weighted average price are
recomputed; on a new symbol a position row is added; on a sell the quantity
is reduced, the realized pnl for the trade row is returned, and the
position is closed when the remaining stored quantity is at most the
epsilon.  Returns the updated database and the pnl for the trade row. -/
def tradeStepUpsert (db : DB) (pid : ℕ) (sym side : String)
    (quantity_decimal price_decimal : ℚ)
    (stop_loss_pct take_profit_pct : Option ℚ) : DB × Option ℚ :=
  match db.openPosition pid sym with
  | some position =>
    if side = "buy" then
      let pos_qty := pyRepr position.quantity
      let pos_avg := pyRepr position.average_price
      let total_quantity := dAdd pos_qty quantity_decimal
      let total_cost := dAdd (dMul pos_qty pos_avg) (dMul quantity_decimal price_decimal)
      let p1 := { position with
        quantity := floatOfRat total_quantity,
        average_price := floatOfRat (dDiv total_cost total_quantity),
        current_price := floatOfRat price_decimal }
      let p2 := applyProtectiveStops p1 price_decimal stop_loss_pct take_profit_pct
      ({ db with positions := db.positions.map (fun q => if q.id = position.id then p2 else q) },
        none)
    else
      let pos_qty := pyRepr position.quantity
      let pos_avg := pyRepr position.average_price
      let newQty := floatOfRat (dSub pos_qty quantity_decimal)
      let pnl := dMul (dSub price_decimal pos_avg) quantity_decimal
      let p1 := { position with quantity := newQty }
      let p2 := if newQty ≤ closedEpsilon then { p1 with status := "closed" } else p1
      ({ db with positions := db.positions.map (fun q => if q.id = position.id then p2 else q) },
        some (floatOfRat pnl))
  | none =>
    if side = "buy" then
      let p := PositionR.mk db.next_position_id pid sym (floatOfRat quantity_decimal)
        (floatOfRat price_decimal) (floatOfRat price_decimal) none none none "open" none none
      let p2 := applyProtectiveStops p price_decimal stop_loss_pct take_profit_pct
      let db1 := { db with positions := db.positions ++ [p2] }
      ({ db1 with next_position_id := db1.next_position_id + 1 }, none)
    else (db, none)

/-- Recompute the portfolio total value from the open positions of the
lock-consistent session: a sequential Decimal sum of quantity times current
price over the repr of the stored columns, added to the repr of the stored
balance, stored back through a float cast. -/
def tradeStepTotalValue (db : DB) (pid : ℕ) : DB :=
  let total_position_value :=
    (db.positions.filter (fun p => (p.portfolio_id == pid) && (p.status == "open"))).foldl
      (fun acc p => dAdd acc (dMul (pyRepr p.quantity) (pyRepr p.current_price))) 0
  { db with portfolio := { db.portfolio with
      total_value := floatOfRat (dAdd (pyRepr db.portfolio.balance) total_position_value) } }

/-- Rolled-back session and the error atomic_trade_lock raises after any
exception inside the critical section. -/
def rollbackErr (s : Session) : Session × Except TradingError TradeResult :=
  (⟨s.committed, s.committed⟩,
    Except.error ⟨"DB_TRANSACTION_FAILED", "Concurrent trade detected - please retry"⟩)

/-- EnhancedTradingEngine.execute_trade: validation before any lock, then
the lock-protected critical section with the balance update, the position
upsert, the total-value recomputation and the trade insert, committed at
exit.  The fail argument injects an exception at the given site inside the
critical section; atomic_trade_lock then rolls the transaction back and
raises a TradingError. -/
def EnhancedTradingEngine.execute_trade (eng : EnhancedTradingEngine) (s : Session)
    (portfolio_id : ℕ) (symbol side : String) (quantity price : ℚ)
    (stop_loss_pct take_profit_pct : Option ℚ) (fail : Option FailPoint) :
    Session × Except TradingError TradeResult :=
  let v := eng.validate_trade s.pending portfolio_id symbol side quantity price
  if v.1 = true then
    match SymbolValidator.validate symbol, PriceValidator.validate price,
        QuantityValidator.validate quantity with
    | Except.ok sym, Except.ok price_decimal, Except.ok quantity_decimal =>
      if fail = some FailPoint.afterLock then rollbackErr s else
      let db1 := tradeStepBalance s.pending side quantity_decimal price_decimal
      if fail = some FailPoint.afterBalance then rollbackErr s else
      let up := tradeStepUpsert db1 portfolio_id sym side quantity_decimal price_decimal
        stop_loss_pct take_profit_pct
      if fail = some FailPoint.afterUpsert then rollbackErr s else
      let db3 := tradeStepTotalValue up.1 portfolio_id
      if fail = some FailPoint.afterTotalValue then rollbackErr s else
      let trade : TradeR := ⟨portfolio_id, sym, side, floatOfRat quantity_decimal,
        floatOfRat price_decimal, up.2⟩
      let db4 := { db3 with trades := db3.trades ++ [trade] }
      if fail = some FailPoint.afterTradeAdd then rollbackErr s else
      (⟨db4, db4⟩, Except.ok ⟨sym, side, trade.quantity, trade.price, up.2,
        db4.portfolio.balance, db4.portfolio.total_value⟩)
    | _, _, _ => (s, Except.error ⟨"VALIDATION_ERROR", "Validator rejected input"⟩)
  else (s, Except.error ⟨"TRADE_VALIDATION_FAILED", v.2⟩)

/-- Successful critical section of execute_trade as one function of the
validated inputs: balance update, position upsert, total-value
recomputation and trade insert, in source order.  Returns the database to
commit and the pnl recorded on the trade. -/
def commitTrade (db0 : DB) (pid : ℕ) (sym side : String) (qd pd : ℚ)
    (sl tp : Option ℚ) : DB × Option ℚ :=
  let db1 := tradeStepBalance db0 side qd pd
  let up := tradeStepUpsert db1 pid sym side qd pd sl tp
  let db3 := tradeStepTotalValue up.1 pid
  let trade : TradeR := ⟨pid, sym, side, floatOfRat qd, floatOfRat pd, up.2⟩
  ({ db3 with trades := db3.trades ++ [trade] }, up.2)

/-- Injected exception site inside the critical section of the position
closure of the stop-loss manager. -/
inductive CloseFail
  | afterLock
  | afterTradeInsert
  | afterBalance
  | afterStatus
  | afterTotalValue
deriving Repr, DecidableEq

/-- Rolled-back session and the error the stop-loss manager raises after
any exception inside its transaction. -/
def closeRollback (s : Session) : Session × Except TradingError Unit :=
  (⟨s.committed, s.committed⟩,
    Except.error ⟨"TRADE_EXECUTION_FAILED", "Failed to close position"⟩)

/-- StopLossTakeProfitManager._close_position: under the row locks, insert
the sell trade first, then credit the proceeds to the balance, mark the
position closed with its exit fields, recompute the total value excluding
the closed row, and commit.  Any exception, injected through fail, rolls
the whole transaction back, so the trade insert and the position and
portfolio mutations are one atomic unit. -/
def StopLossTakeProfitManager.close_position (s : Session) (position_id : ℕ)
    (reason : String) (fail : Option CloseFail) : Session × Except TradingError Unit :=
  match s.pending.positions.find? (fun p => p.id == position_id) with
  | none => closeRollback s
  | some locked_position =>
    if s.pending.portfolio.id ≠ locked_position.portfolio_id then closeRollback s
    else
    if fail = some CloseFail.afterLock then closeRollback s else
    let entry_price := pyRepr locked_position.average_price
    let exit_price := pyRepr locked_position.current_price
    let quantity := pyRepr locked_position.quantity
    let pnl := dMul (dSub exit_price entry_price) quantity
    let trade : TradeR := ⟨locked_position.portfolio_id, locked_position.symbol, "sell",
      floatOfRat quantity, floatOfRat exit_price, some (floatOfRat pnl)⟩
    let db1 := { s.pending with trades := s.pending.trades ++ [trade] }
    if fail = some CloseFail.afterTradeInsert then closeRollback s else
    let balance := pyRepr db1.portfolio.balance
    let proceeds := dMul quantity exit_price
    let db2 := { db1 with portfolio := { db1.portfolio with
      balance := floatOfRat (dAdd balance proceeds) } }
    if fail = some CloseFail.afterBalance then closeRollback s else
    let closed0 := { locked_position with status := "closed" }
    let closed1 := { closed0 with exit_price := some (floatOfRat exit_price) }
    let closed := { closed1 with exit_reason := some reason }
    let newPositions := db2.positions.map (fun q => if q.id = locked_position.id then closed else q)
    let db3 := { db2 with positions := newPositions }
    if fail = some CloseFail.afterStatus then closeRollback s else
    let total_position_value :=
      (db3.positions.filter (fun p => (p.portfolio_id == db3.portfolio.id) &&
        (p.status == "open") && (p.id != locked_position.id))).foldl
        (fun acc p => dAdd acc (dMul (pyRepr p.quantity) (pyRepr p.current_price))) 0
    let db4 := { db3 with portfolio := { db3.portfolio with
      total_value := floatOfRat (dAdd (pyRepr db3.portfolio.balance) total_position_value) } }
    if fail = some CloseFail.afterTotalValue then closeRollback s else
    (⟨db4, db4⟩, Except.ok ())

/-- One order intent for a run of execute_trade calls. -/
structure TradeInstr where
  symbol : String
  side : String
  quantity : ℚ
  price : ℚ
deriving Repr, DecidableEq

/-- Run a sequence of execute_trade calls on one portfolio without injected
failures, threading the session and collecting which calls succeeded. -/
def runTrades (eng : EnhancedTradingEngine) (pid : ℕ) :
    Session → List TradeInstr → Session × List Bool
  | s, [] => (s, [])
  | s, i :: rest =>
    let r := eng.execute_trade s pid i.symbol i.side i.quantity i.price none none none
    let t := runTrades eng pid r.1 rest
    (t.1, (match r.2 with | Except.ok _ => true | Except.error _ => false) :: t.2)

/-- Signed decimal cash flow of one instruction: minus the validated cost
on a buy, plus the validated proceeds on a sell. -/
def signedCost (i : TradeInstr) : ℚ :=
  match QuantityValidator.validate i.quantity, PriceValidator.validate i.price with
  | Except.ok qd, Except.ok pd => if i.side = "buy" then -(dMul qd pd) else dMul qd pd
  | _, _ => 0

/-- Exact ledger delta of a run: initial balance plus this is the balance
the claim predicts. -/
def ledgerDelta (l : List TradeInstr) : ℚ := (l.map signedCost).sum

/-- Exact running balances of a run, one value per instruction. -/
def exactBalances (b0 : ℚ) : List TradeInstr → List ℚ
  | [] => []
  | i :: rest =>
    let b1 := b0 + signedCost i
    b1 :: exactBalances b1 rest

/-- A value that survives the decimal context, the float store and the repr
read-back unchanged. -/
def LosslessVal (v : ℚ) : Prop := round28 v = v ∧ floatOfRat v = v ∧ pyRepr v = v

instance (v : ℚ) : Decidable (LosslessVal v) := by
  unfold LosslessVal; infer_instance

deriving instance DecidableEq for Except

/-- Whether an Except value is a success, for decidable statements. -/
def exOk {ε α : Type} : Except ε α → Bool
  | Except.ok _ => true
  | Except.error _ => false

/-- Kalshi snapshot of the worked arbitrage example: the float fields hold
the binary64 values of the literals 0.42 and 0.58. -/
def kalshiMarket : PredictionMarket :=
  ⟨"k1", "fed cuts rates in march", floatOfRat (42 / 100), floatOfRat (58 / 100),
    "kalshi", 10000⟩

/-- Polymarket snapshot of the worked arbitrage example: the float fields
hold the binary64 values of the literals 0.45 and 0.53. -/
def polymarketMarket : PredictionMarket :=
  ⟨"p1", "fed cuts rates in march", floatOfRat (45 / 100), floatOfRat (53 / 100),
    "polymarket", 10000⟩

/-- Engine configuration used by the concrete runs: no minimum balance
floor, position-size fraction of one, up to fifty open positions. -/
def engFixture : EnhancedTradingEngine := ⟨0, 1, 1 / 50, 50⟩

/-- Portfolio with a large balance, for the drift run. -/
def dbDrift : DB := ⟨⟨1, 1000000000000000, 1000000000000000⟩, [], [], 1⟩

/-- Fresh session over the large portfolio. -/
def sDrift : Session := ⟨dbDrift, dbDrift⟩

/-- Open position whose volume-weighted average after the next buy is not a
finite decimal. -/
def posThird : PositionR :=
  ⟨1, 1, "AAPL", 1, 1 / 10, 1 / 10, none, none, none, "open", none, none⟩

/-- Database holding that one open position. -/
def dbThird : DB := ⟨⟨1, 10000, 10000⟩, [posThird], [], 2⟩

/-- Fresh session over it. -/
def sThird : Session := ⟨dbThird, dbThird⟩

/-- Open position with dyadic figures, for the lossless witnesses. -/
def posQuarter : PositionR :=
  ⟨1, 1, "AAPL", 1, 1 / 4, 1 / 4, none, none, none, "open", none, none⟩

/-- Open position with quantity two, for the sell witness. -/
def posQuarterTwo : PositionR :=
  ⟨1, 1, "AAPL", 2, 1 / 4, 1 / 4, none, none, none, "open", none, none⟩

/-- Database for the buy witness. -/
def dbQuarter : DB := ⟨⟨1, 10000, 10000⟩, [posQuarter], [], 2⟩

/-- Session for the buy witness. -/
def sQuarter : Session := ⟨dbQuarter, dbQuarter⟩

/-- Database for the sell witness. -/
def dbQuarterTwo : DB := ⟨⟨1, 10000, 10000⟩, [posQuarterTwo], [], 2⟩

/-- Session for the sell witness. -/
def sQuarterTwo : Session := ⟨dbQuarterTwo, dbQuarterTwo⟩

/-- Empty-portfolio database for the ledger witness run. -/
def dbLedger : DB := ⟨⟨1, 10000, 10000⟩, [], [], 1⟩

/-- Session for the ledger witness run. -/
def sLedger : Session := ⟨dbLedger, dbLedger⟩

/-- Two-instruction run for the ledger witness: a buy of two at 100.25 and
a sell of one at 50.25, all values lossless. -/
def instrsLedger : List TradeInstr :=
  [⟨"AAPL", "buy", 2, 401 / 4⟩, ⟨"AAPL", "sell", 1, 201 / 4⟩]

/-- Handler that always raises. -/
def throwingHandler : Event → Except String ℤ := fun _ => Except.error "handler boom"

/-- Handler that returns the payload. -/
def okHandler : Event → Except String ℤ := fun e => Except.ok e.payload

/-- Event used by the bus witnesses. -/
def busEvent : Event := ⟨"trade.executed", 7⟩

end Pythia

namespace Pythia

/-! Theorems. -/

/-- C9 counterexample: a HOLD signal produces the status hold, not the
status skipped the claim states, though indeed with no adapter call. -/
theorem C9_counterexample :
    execute_signal (6 / 10) [("crypto", AdapterBehavior.mk true 100 0)]
        (TradingSignal.mk "HOLD" (9 / 10) "BTC-USD" "strong trend" "crypto") =
      Except.ok ⟨"hold", []⟩ ∧ ("hold" : String) ≠ "skipped" := by
  constructor
  · rfl
  · decide

/-- C9 amended: a HOLD signal returns a hold result and a signal below the
confidence threshold returns a skipped result, in both cases with no
adapter method invoked; a signal that passes both gates whose adapter
reports the market closed returns a deferred result having invoked only
is_market_open and never place_order. -/
theorem C9_amended (mc : ℚ) (ports : List (String × AdapterBehavior))
    (sig : TradingSignal) :
    (sig.action = "HOLD" → execute_signal mc ports sig = Except.ok ⟨"hold", []⟩) ∧
    (sig.action ≠ "HOLD" → sig.confidence < mc →
      execute_signal mc ports sig = Except.ok ⟨"skipped", []⟩) ∧
    (∀ port, sig.action ≠ "HOLD" → ¬ sig.confidence < mc →
      ports.lookup sig.asset_class = some port → port.market_open = false →
      execute_signal mc ports sig =
        Except.ok ⟨"deferred", [AdapterCall.isMarketOpen]⟩) := by
  refine ⟨fun h => by simp [execute_signal, h], fun h hc => by simp [execute_signal, h, hc],
    fun port h hc hl hm => by simp [execute_signal, h, hc, hl, hm]⟩

/-- Witness for C9 amended: a closed market defers after checking only
whether the market is open. -/
theorem C9_amended_witness :
    execute_signal (6 / 10) [("crypto", AdapterBehavior.mk false 100 0)]
        (TradingSignal.mk "BUY" (9 / 10) "BTC-USD" "strong trend" "crypto") =
      Except.ok ⟨"deferred", [AdapterCall.isMarketOpen]⟩ := by
  exact (C9_amended (6 / 10) [("crypto", AdapterBehavior.mk false 100 0)]
      (TradingSignal.mk "BUY" (9 / 10) "BTC-USD" "strong trend" "crypto")).2.2
    (AdapterBehavior.mk false 100 0) (by decide) (by norm_num) (by decide) rfl

set_option maxRecDepth 10000 in
/-- C6 counterexample: on the worked Kalshi against Polymarket snapshot the
program computes in binary64, so the returned profit is the float
1.0 - 0.95, whose exact value is 225179981368525 over 2 to the 52 (the
float printed 0.050000000000000044), not five hundredths, and the returned
roi is not one nineteenth; the claim's exact profit of five hundredths is
false of the code. -/
theorem C6_counterexample :
    (kalshiMarket.arbitrage_opportunity polymarketMarket).map ArbOpportunity.cost =
      some (floatOfRat (19 / 20)) ∧
    (kalshiMarket.arbitrage_opportunity polymarketMarket).map ArbOpportunity.profit =
      some (225179981368525 / 4503599627370496) ∧
    (225179981368525 : ℚ) / 4503599627370496 ≠ 1 / 20 ∧
    (kalshiMarket.arbitrage_opportunity polymarketMarket).map ArbOpportunity.profit ≠
      some (1 / 20) ∧
    (kalshiMarket.arbitrage_opportunity polymarketMarket).map ArbOpportunity.roi ≠
      some (1 / 19) := by decide

set_option maxRecDepth 10000 in
/-- C6 amended: arbitrage_opportunity evaluates both complementary
directions in binary64 arithmetic; it returns none exactly when neither
direction's float cost is under one; any returned opportunity costs under
one, has profit the float subtraction of its cost from one and roi the
float division of that profit by the cost, is one of the two directions,
and its roi is at least the float roi of every direction that costs under
one.  On the worked Kalshi against Polymarket snapshot it returns exactly
the forward opportunity whose cost is the binary64 value of ninety five
hundredths, whose profit is the float 1.0 - 0.95 (printed
0.050000000000000044, not exactly five hundredths), and whose roi is the
float quotient (printed 0.052631578947368474), which is within one
ten-thousandth of the quoted five hundred twenty six ten-thousandths. -/
theorem C6_amended :
    (∀ a b : PredictionMarket,
      (a.arbitrage_opportunity b = none ↔
        1 ≤ floatOfRat (a.yes_price + b.no_price) ∧
          1 ≤ floatOfRat (a.no_price + b.yes_price)) ∧
      (∀ o, a.arbitrage_opportunity b = some o →
        o.cost < 1 ∧ o.profit = floatOfRat (1 - o.cost) ∧
        o.roi = floatOfRat (o.profit / o.cost) ∧
        (o.cost = floatOfRat (a.yes_price + b.no_price) ∨
          o.cost = floatOfRat (a.no_price + b.yes_price)) ∧
        (floatOfRat (a.yes_price + b.no_price) < 1 →
          floatOfRat (floatOfRat (1 - floatOfRat (a.yes_price + b.no_price)) /
            floatOfRat (a.yes_price + b.no_price)) ≤ o.roi) ∧
        (floatOfRat (a.no_price + b.yes_price) < 1 →
          floatOfRat (floatOfRat (1 - floatOfRat (a.no_price + b.yes_price)) /
            floatOfRat (a.no_price + b.yes_price)) ≤ o.roi))) ∧
    kalshiMarket.arbitrage_opportunity polymarketMarket =
      some ⟨floatOfRat (19 / 20), 225179981368525 / 4503599627370496,
        474063118670579 / 9007199254740992,
        "BUY YES on kalshi, BUY NO on polymarket"⟩ ∧
    |(474063118670579 : ℚ) / 9007199254740992 - 526 / 10000| < 1 / 10000 := by
  refine ⟨?_, by decide, by rw [abs_sub_lt_iff]; norm_num⟩
  intro a b
  unfold PredictionMarket.arbitrage_opportunity maxByRoi
  dsimp only
  by_cases hf : floatOfRat (a.yes_price + b.no_price) < 1
  · by_cases hr : floatOfRat (a.no_price + b.yes_price) < 1
    · rw [if_pos hf, if_pos hr]
      simp only [List.cons_append, List.nil_append, List.foldl_cons, List.foldl_nil]
      dsimp only
      refine ⟨⟨fun h => Option.noConfusion h, fun hab => absurd hf (not_lt.2 hab.1)⟩, ?_⟩
      intro o ho
      rw [Option.some_inj] at ho
      by_cases hcmp :
          (floatOfRat (floatOfRat (1 - floatOfRat (a.yes_price + b.no_price)) /
              floatOfRat (a.yes_price + b.no_price)) <
            floatOfRat (floatOfRat (1 - floatOfRat (a.no_price + b.yes_price)) /
              floatOfRat (a.no_price + b.yes_price)))
      · rw [if_pos hcmp] at ho
        subst ho
        exact ⟨hr, rfl, rfl, Or.inr rfl, fun _ => le_of_lt hcmp, fun _ => le_rfl⟩
      · rw [if_neg hcmp] at ho
        subst ho
        exact ⟨hf, rfl, rfl, Or.inl rfl, fun _ => le_rfl, fun _ => le_of_not_lt hcmp⟩
    · rw [if_pos hf, if_neg hr]
      simp only [List.append_nil, List.foldl_nil]
      refine ⟨⟨fun h => Option.noConfusion h, fun hab => absurd hf (not_lt.2 hab.1)⟩, ?_⟩
      intro o ho
      rw [Option.some_inj] at ho
      subst ho
      exact ⟨hf, rfl, rfl, Or.inl rfl, fun _ => le_rfl, fun h => absurd h hr⟩
  · by_cases hr : floatOfRat (a.no_price + b.yes_price) < 1
    · rw [if_neg hf, if_pos hr]
      simp only [List.nil_append, List.foldl_nil]
      refine ⟨⟨fun h => Option.noConfusion h, fun hab => absurd hr (not_lt.2 hab.2)⟩, ?_⟩
      intro o ho
      rw [Option.some_inj] at ho
      subst ho
      exact ⟨hr, rfl, rfl, Or.inr rfl, fun h => absurd h hf, fun _ => le_rfl⟩
    · rw [if_neg hf, if_neg hr]
      simp only [List.append_nil]
      exact ⟨⟨fun _ => ⟨le_of_not_lt hf, le_of_not_lt hr⟩, fun _ => trivial⟩,
        fun o ho => Option.noConfusion ho⟩

/-- Witness for the amended C6 at the worked pair: the returned opportunity
satisfies every clause of the general statement. -/
theorem C6_amended_witness :
    (floatOfRat ((19 : ℚ) / 20) < 1 ∧
      (225179981368525 : ℚ) / 4503599627370496 =
        floatOfRat (1 - floatOfRat (19 / 20)) ∧
      (474063118670579 : ℚ) / 9007199254740992 =
        floatOfRat ((225179981368525 : ℚ) / 4503599627370496 / floatOfRat (19 / 20)) ∧
      (floatOfRat ((19 : ℚ) / 20) =
          floatOfRat (kalshiMarket.yes_price + polymarketMarket.no_price) ∨
        floatOfRat ((19 : ℚ) / 20) =
          floatOfRat (kalshiMarket.no_price + polymarketMarket.yes_price))) := by
  have h := (C6_amended.1 kalshiMarket polymarketMarket).2
    ⟨floatOfRat (19 / 20), 225179981368525 / 4503599627370496,
      474063118670579 / 9007199254740992,
      "BUY YES on kalshi, BUY NO on polymarket"⟩
    C6_amended.2.1
  exact ⟨h.1, h.2.1, h.2.2.1, h.2.2.2.1⟩

theorem sagaExecAux_nil (completed : List SagaStep) (trace : List SagaEvent) :
    sagaExecAux [] completed trace = (trace.reverse, Except.ok ()) := rfl

theorem sagaExecAux_cons (s : SagaStep) (rest completed : List SagaStep)
    (trace : List SagaEvent) :
    sagaExecAux (s :: rest) completed trace =
      match s.action_error with
      | none => sagaExecAux rest (s :: completed) (SagaEvent.action s.name :: trace)
      | some m =>
        ((SagaEvent.action s.name :: trace).reverse ++ sagaCompensate completed,
          Except.error ⟨"Saga failed: " ++ m⟩) := rfl

theorem sagaExecAux_fail (post : List SagaStep) (f : SagaStep) (m : String)
    (hf : f.action_error = some m) :
    ∀ (pre : List SagaStep) (completed : List SagaStep) (trace : List SagaEvent),
      (∀ s ∈ pre, s.action_error = none) →
      sagaExecAux (pre ++ f :: post) completed trace =
        (trace.reverse ++ pre.map (fun s => SagaEvent.action s.name) ++
          [SagaEvent.action f.name] ++ sagaCompensate (pre.reverse ++ completed),
         Except.error ⟨"Saga failed: " ++ m⟩) := by
  intro pre
  induction pre with
  | nil =>
    intro completed trace _
    rw [List.nil_append, sagaExecAux_cons, hf]
    simp
  | cons s rest ih =>
    intro completed trace hpre
    have hs : s.action_error = none := hpre s (by simp)
    have hrest : ∀ x ∈ rest, x.action_error = none := fun x hx => hpre x (by simp [hx])
    rw [List.cons_append, sagaExecAux_cons, hs]
    dsimp only
    rw [ih (s :: completed) (SagaEvent.action s.name :: trace) hrest]
    simp [sagaCompensate, List.append_assoc]

theorem sagaExecAux_ok :
    ∀ (steps : List SagaStep) (completed : List SagaStep) (trace : List SagaEvent),
      (∀ s ∈ steps, s.action_error = none) →
      sagaExecAux steps completed trace =
        (trace.reverse ++ steps.map (fun s => SagaEvent.action s.name), Except.ok ()) := by
  intro steps
  induction steps with
  | nil => intro completed trace _; simp [sagaExecAux_nil]
  | cons s rest ih =>
    intro completed trace hall
    have hs : s.action_error = none := hall s (by simp)
    have hrest : ∀ x ∈ rest, x.action_error = none := fun x hx => hall x (by simp [hx])
    rw [sagaExecAux_cons, hs]
    dsimp only
    rw [ih (s :: completed) (SagaEvent.action s.name :: trace) hrest]
    simp

/-- C5: when the action of step k raises after steps one to k minus one
completed, the later steps contribute no action and no compensation to the
run, the compensations of the completed steps each run exactly once in
strict reverse order, a raising compensation does not stop the sweep (the
compensation outcomes are unconstrained here and do not affect the trace),
and execute raises a saga failure wrapping the original message; a run
whose actions all succeed performs the actions in order, compensates
nothing, and returns normally. -/
theorem C5_saga_compensation :
    (∀ (pre post : List SagaStep) (f : SagaStep) (m : String),
      (∀ s ∈ pre, s.action_error = none) → f.action_error = some m →
      SagaCoordinator.execute (pre ++ f :: post) =
        (pre.map (fun s => SagaEvent.action s.name) ++ [SagaEvent.action f.name] ++
          pre.reverse.map (fun s => SagaEvent.comp s.name),
         Except.error ⟨"Saga failed: " ++ m⟩)) ∧
    (∀ steps : List SagaStep, (∀ s ∈ steps, s.action_error = none) →
      SagaCoordinator.execute steps =
        (steps.map (fun s => SagaEvent.action s.name), Except.ok ())) := by
  constructor
  · intro pre post f m hpre hf
    unfold SagaCoordinator.execute
    rw [sagaExecAux_fail post f m hf pre [] [] hpre]
    simp [sagaCompensate, List.append_assoc]
  · intro steps hall
    unfold SagaCoordinator.execute
    rw [sagaExecAux_ok steps [] [] hall]
    simp

/-- Witness for C5: a three-step saga whose second step fails and whose
first compensation itself fails still compensates exactly step one, and the
saga failure wraps the original message; a one-step saga that succeeds runs
no compensation. -/
theorem C5_saga_compensation_witness :
    SagaCoordinator.execute
        [⟨"step1", none, some "comp1 boom"⟩, ⟨"step2", some "boom", none⟩,
          ⟨"step3", none, none⟩] =
      ([SagaEvent.action "step1", SagaEvent.action "step2", SagaEvent.comp "step1"],
        Except.error ⟨"Saga failed: boom"⟩) ∧
    SagaCoordinator.execute [⟨"step1", none, none⟩] =
      ([SagaEvent.action "step1"], Except.ok ()) := by
  constructor
  · have h := C5_saga_compensation.1 [⟨"step1", none, some "comp1 boom"⟩]
      [⟨"step3", none, none⟩] ⟨"step2", some "boom", none⟩ "boom"
      (by intro s hs; simp at hs; subst hs; rfl) rfl
    simpa using h
  · have h := C5_saga_compensation.2 [⟨"step1", none, none⟩]
      (by intro s hs; simp at hs; subst hs; rfl)
    simpa using h

theorem get?_mem_enumFrom {α : Type} :
    ∀ (l : List α) (n i : ℕ) (x : α), l.get? i = some x → (n + i, x) ∈ l.enumFrom n := by
  intro l
  induction l with
  | nil => intro n i x h; cases h
  | cons a t ih =>
    intro n i x h
    cases i with
    | zero =>
      rw [List.get?] at h
      injection h with h
      subst h
      simp [List.enumFrom]
    | succ j =>
      rw [List.get?] at h
      have hmem := ih (n + 1) j x h
      have : n + (j + 1) = (n + 1) + j := by omega
      rw [this]
      exact List.mem_cons_of_mem _ hmem

theorem dispatchAux_nil (e : Event) (n : ℕ) (log : DispatchLog) :
    dispatchAux e n [] log = log := rfl

theorem dispatchAux_cons (e : Event) (n : ℕ) (i : ℕ) (h : Event → Except String ℤ)
    (rest : List (ℕ × (Event → Except String ℤ))) (log : DispatchLog) :
    dispatchAux e n ((i, h) :: rest) log =
      match h e with
      | Except.ok r =>
        dispatchAux e n rest ⟨log.invoked ++ [i], log.results ++ [r], log.reports⟩
      | Except.error m =>
        dispatchAux e n rest
          ⟨log.invoked ++ [i], log.results,
            log.reports ++ (List.range n).map (fun j => (i, j, m))⟩ := rfl

theorem dispatchAux_invoked (e : Event) (n : ℕ) :
    ∀ (l : List (ℕ × (Event → Except String ℤ))) (log : DispatchLog),
      (dispatchAux e n l log).invoked = log.invoked ++ l.map Prod.fst := by
  intro l
  induction l with
  | nil => intro log; rw [dispatchAux_nil]; simp
  | cons p rest ih =>
    intro log
    obtain ⟨i, h⟩ := p
    rw [dispatchAux_cons]
    cases hh : h e with
    | ok r => rw [ih]; simp
    | error m => rw [ih]; simp

theorem dispatchAux_reports_subset (e : Event) (n : ℕ) :
    ∀ (l : List (ℕ × (Event → Except String ℤ))) (log : DispatchLog),
      log.reports ⊆ (dispatchAux e n l log).reports := by
  intro l
  induction l with
  | nil => intro log; rw [dispatchAux_nil]; exact fun x hx => hx
  | cons p rest ih =>
    intro log x hx
    obtain ⟨i, h⟩ := p
    rw [dispatchAux_cons]
    cases hh : h e with
    | ok r => exact ih _ hx
    | error m => exact ih _ (List.mem_append_left _ hx)

theorem dispatchAux_mem_reports (e : Event) (n : ℕ) :
    ∀ (l : List (ℕ × (Event → Except String ℤ))) (log : DispatchLog) (i : ℕ)
      (h : Event → Except String ℤ) (m : String),
      (i, h) ∈ l → h e = Except.error m → ∀ j, j < n →
      (i, j, m) ∈ (dispatchAux e n l log).reports := by
  intro l
  induction l with
  | nil => intro log i h m hmem; cases hmem
  | cons p rest ih =>
    intro log i h m hmem herr j hj
    obtain ⟨i0, h0⟩ := p
    rcases List.mem_cons.1 hmem with heq | htail
    · injection heq with hi hh
      subst hi
      subst hh
      rw [dispatchAux_cons, herr]
      refine dispatchAux_reports_subset e n rest _ ?_
      refine List.mem_append_right _ ?_
      exact List.mem_map.2 ⟨j, List.mem_range.2 hj, rfl⟩
    · rw [dispatchAux_cons]
      cases hh : h0 e with
      | ok r => exact ih _ i h m htail herr j hj
      | error m0 => exact ih _ i h m htail herr j hj

/-- C8: dispatch invokes every subscribed handler in order, a failing
handler notwithstanding; each handler failure is reported to every
registered error handler; and the worker loop dispatches every queued
event, so a handler that always raises neither starves its siblings nor
stops the loop on later events. -/
theorem C8_handler_isolation :
    (∀ (handlers : List (Event → Except String ℤ)) (ehCount : ℕ) (e : Event),
      (AsyncEventBus.dispatch handlers ehCount e).invoked =
        List.range handlers.length) ∧
    (∀ (handlers : List (Event → Except String ℤ)) (ehCount : ℕ) (e : Event)
      (i : ℕ) (h : Event → Except String ℤ) (m : String),
      handlers.get? i = some h → h e = Except.error m → ∀ j, j < ehCount →
      (i, j, m) ∈ (AsyncEventBus.dispatch handlers ehCount e).reports) ∧
    (∀ (handlers : List (Event → Except String ℤ)) (ehCount : ℕ)
      (events : List Event) (i : ℕ) (e : Event), events.get? i = some e →
      (AsyncEventBus.runWorker handlers ehCount events).get? i =
        some (AsyncEventBus.dispatch handlers ehCount e)) := by
  refine ⟨?_, ?_, ?_⟩
  · intro handlers n e
    unfold AsyncEventBus.dispatch
    rw [dispatchAux_invoked]
    simp [List.enum_map_fst]
  · intro handlers n e i h m hget herr j hj
    unfold AsyncEventBus.dispatch
    have hmem : (i, h) ∈ handlers.enum := by
      have hx := get?_mem_enumFrom handlers 0 i h hget
      simpa [List.enum] using hx
    exact dispatchAux_mem_reports e n handlers.enum _ i h m hmem herr j hj
  · intro handlers n events i e hget
    unfold AsyncEventBus.runWorker
    rw [List.get?_map, hget]
    rfl

/-- Witness for C8: with a handler that always raises subscribed first, the
second handler still runs, the one error handler is notified, and the
second of two queued events is still dispatched. -/
theorem C8_handler_isolation_witness :
    (AsyncEventBus.dispatch [throwingHandler, okHandler] 1 busEvent).invoked = [0, 1] ∧
    (0, 0, "handler boom") ∈
      (AsyncEventBus.dispatch [throwingHandler, okHandler] 1 busEvent).reports ∧
    (AsyncEventBus.runWorker [throwingHandler, okHandler] 1 [busEvent, busEvent]).get? 1 =
      some (AsyncEventBus.dispatch [throwingHandler, okHandler] 1 busEvent) := by
  refine ⟨?_, ?_, ?_⟩
  · have h := C8_handler_isolation.1 [throwingHandler, okHandler] 1 busEvent
    simpa using h
  · exact C8_handler_isolation.2.1 [throwingHandler, okHandler] 1 busEvent 0
      throwingHandler "handler boom" rfl rfl 0 (by norm_num)
  · exact C8_handler_isolation.2.2 [throwingHandler, okHandler] 1 [busEvent, busEvent]
      1 busEvent rfl

theorem runTrace_nil (cb : CircuitBreaker) : cb.runTrace [] = cb := rfl

theorem runTrace_cons (cb : CircuitBreaker) (t : ℚ) (o : CallOutcome)
    (rest : List (ℚ × CallOutcome)) :
    cb.runTrace ((t, o) :: rest) = ((cb.call t o).1).runTrace rest := rfl

theorem cb_check_state_closed (cb : CircuitBreaker) (t : ℚ)
    (h : cb.state = CBState.CLOSED) : cb.check_state t = cb := by
  unfold CircuitBreaker.check_state
  rw [if_neg]
  intro hc
  rw [h] at hc
  exact CBState.noConfusion hc.1

theorem cb_check_state_half (cb : CircuitBreaker) (t : ℚ)
    (h : cb.state = CBState.HALF_OPEN) : cb.check_state t = cb := by
  unfold CircuitBreaker.check_state
  rw [if_neg]
  intro hc
  rw [h] at hc
  exact CBState.noConfusion hc.1

theorem cb_call_closed_ok (cb : CircuitBreaker) (t : ℚ)
    (h : cb.state = CBState.CLOSED) :
    cb.call t CallOutcome.ok = (cb, CallResult.returned) := by
  unfold CircuitBreaker.call
  rw [cb_check_state_closed cb t h]
  rw [if_neg (by rw [h]; exact fun hc => CBState.noConfusion hc)]
  dsimp only
  rw [if_neg (by rw [h]; exact fun hc => CBState.noConfusion hc)]

theorem cb_call_closed_err (cb : CircuitBreaker) (t : ℚ)
    (h : cb.state = CBState.CLOSED) :
    cb.call t CallOutcome.error = (cb.record_failure t, CallResult.raised) := by
  unfold CircuitBreaker.call
  rw [cb_check_state_closed cb t h]
  rw [if_neg (by rw [h]; exact fun hc => CBState.noConfusion hc)]

theorem errCount_cons_ok (t : ℚ) (rest : List (ℚ × CallOutcome)) :
    errCount ((t, CallOutcome.ok) :: rest) = errCount rest := by
  simp [errCount]

theorem errCount_cons_err (t : ℚ) (rest : List (ℚ × CallOutcome)) :
    errCount ((t, CallOutcome.error) :: rest) = errCount rest + 1 := by
  simp [errCount]

theorem errCount_replicate (n : ℕ) (T : ℚ) :
    errCount (List.replicate n (T, CallOutcome.error)) = n := by
  induction n with
  | zero => rfl
  | succ k ih => rw [List.replicate_succ, errCount_cons_err, ih]

theorem cb_run_open_stuck (T : ℚ) :
    ∀ (trace : List (ℚ × CallOutcome)) (ft : ℕ) (rt : ℚ) (f : ℕ),
      0 ≤ rt → (∀ x ∈ trace, x.1 = T) →
      CircuitBreaker.runTrace ⟨ft, rt, CBState.OPEN, f, T⟩ trace =
        ⟨ft, rt, CBState.OPEN, f, T⟩ := by
  intro trace
  induction trace with
  | nil => intro ft rt f _ _; rfl
  | cons x rest ih =>
    intro ft rt f hrt htimes
    obtain ⟨t, o⟩ := x
    have ht : t = T := htimes (t, o) (List.mem_cons_self _ _)
    subst ht
    have hno : ¬ rt < 0 := not_lt.2 hrt
    have hcall : (CircuitBreaker.mk ft rt CBState.OPEN f t).call t o =
        (⟨ft, rt, CBState.OPEN, f, t⟩, CallResult.rejected) := by
      unfold CircuitBreaker.call CircuitBreaker.check_state
      simp [sub_self, hno]
    rw [runTrace_cons, hcall]
    exact ih ft rt f hrt (fun x hx => htimes x (List.mem_cons_of_mem _ hx))

theorem cb_run_closed_accum (T : ℚ) :
    ∀ (trace : List (ℚ × CallOutcome)) (ft : ℕ) (rt : ℚ) (f : ℕ) (lft : ℚ),
      0 ≤ rt → f < ft → (∀ x ∈ trace, x.1 = T) →
      (ft ≤ f + errCount trace →
        (CircuitBreaker.runTrace ⟨ft, rt, CBState.CLOSED, f, lft⟩ trace).state =
          CBState.OPEN ∧
        (CircuitBreaker.runTrace ⟨ft, rt, CBState.CLOSED, f, lft⟩ trace).failures = ft) ∧
      (f + errCount trace < ft →
        (CircuitBreaker.runTrace ⟨ft, rt, CBState.CLOSED, f, lft⟩ trace).state =
          CBState.CLOSED ∧
        (CircuitBreaker.runTrace ⟨ft, rt, CBState.CLOSED, f, lft⟩ trace).failures =
          f + errCount trace) := by
  intro trace
  induction trace with
  | nil =>
    intro ft rt f lft _ hf _
    rw [runTrace_nil]
    refine ⟨fun hle => absurd hle (by simp [errCount]; omega), fun _ => ⟨rfl, by simp [errCount]⟩⟩
  | cons x rest ih =>
    intro ft rt f lft hrt hf htimes
    obtain ⟨t, o⟩ := x
    have ht : t = T := htimes (t, o) (List.mem_cons_self _ _)
    subst ht
    have htail : ∀ x ∈ rest, x.1 = t := fun x hx => htimes x (List.mem_cons_of_mem _ hx)
    cases o with
    | ok =>
      rw [runTrace_cons, cb_call_closed_ok _ _ rfl, errCount_cons_ok]
      exact ih ft rt f lft hrt hf htail
    | error =>
      rw [runTrace_cons, cb_call_closed_err _ _ rfl]
      by_cases hth : ft ≤ f + 1
      · have hftf : ft = f + 1 := le_antisymm hth hf
        have hrec : (CircuitBreaker.mk ft rt CBState.CLOSED f lft).record_failure t =
            ⟨ft, rt, CBState.OPEN, f + 1, t⟩ := by
          unfold CircuitBreaker.record_failure
          simp [hth]
        rw [hrec, cb_run_open_stuck t rest ft rt (f + 1) hrt htail]
        rw [errCount_cons_err]
        constructor
        · intro _
          refine ⟨rfl, ?_⟩
          show f + 1 = ft
          omega
        · intro hlt
          omega
      · have hrec : (CircuitBreaker.mk ft rt CBState.CLOSED f lft).record_failure t =
            ⟨ft, rt, CBState.CLOSED, f + 1, t⟩ := by
          unfold CircuitBreaker.record_failure
          simp [hth]
        rw [hrec, errCount_cons_err]
        have hf1 : f + 1 < ft := by omega
        have hih := ih ft rt (f + 1) t hrt hf1 htail
        constructor
        · intro hle; exact ⟨(hih.1 (by omega)).1, by rw [(hih.1 (by omega)).2]⟩
        · intro hlt
          refine ⟨(hih.2 (by omega)).1, ?_⟩
          rw [(hih.2 (by omega)).2]
          omega

theorem cb_check_state_failures (cb : CircuitBreaker) (t : ℚ) :
    (cb.check_state t).failures = cb.failures := by
  unfold CircuitBreaker.check_state
  split <;> rfl

theorem cb_call_open (cb : CircuitBreaker) (t : ℚ) (o : CallOutcome)
    (h : (cb.check_state t).state = CBState.OPEN) :
    cb.call t o = (cb.check_state t, CallResult.rejected) := by
  unfold CircuitBreaker.call
  rw [if_pos h]

theorem cb_call_notopen_ok (cb : CircuitBreaker) (t : ℚ)
    (h : ¬ (cb.check_state t).state = CBState.OPEN) :
    cb.call t CallOutcome.ok =
      if (cb.check_state t).state = CBState.HALF_OPEN then
        ((cb.check_state t).reset, CallResult.returned)
      else (cb.check_state t, CallResult.returned) := by
  unfold CircuitBreaker.call
  rw [if_neg h]

theorem cb_call_notopen_err (cb : CircuitBreaker) (t : ℚ)
    (h : ¬ (cb.check_state t).state = CBState.OPEN) :
    cb.call t CallOutcome.error =
      ((cb.check_state t).record_failure t, CallResult.raised) := by
  unfold CircuitBreaker.call
  rw [if_neg h]

theorem cb_record_failure_failures (cb : CircuitBreaker) (t : ℚ) :
    (cb.record_failure t).failures = cb.failures + 1 := by
  unfold CircuitBreaker.record_failure
  dsimp only
  split
  · rfl
  · split <;> rfl

/-- C10: a successful guarded call made while the breaker is CLOSED leaves
the whole breaker state, in particular the failure counter, unchanged; the
counter ever decreases only through the HALF_OPEN recovery reset, which
zeroes it after a success; and from CLOSED with f prior failures the
breaker ends OPEN exactly when the failures in the trace bring the total to
the threshold, successes interleaved between the failures notwithstanding. -/
theorem C10_failure_accumulation :
    (∀ (cb : CircuitBreaker) (t : ℚ), cb.state = CBState.CLOSED →
      cb.call t CallOutcome.ok = (cb, CallResult.returned)) ∧
    (∀ (cb : CircuitBreaker) (t : ℚ) (o : CallOutcome),
      ((cb.call t o).1).failures < cb.failures →
      (cb.check_state t).state = CBState.HALF_OPEN ∧ o = CallOutcome.ok ∧
        ((cb.call t o).1).failures = 0) ∧
    (∀ (ft : ℕ) (rt T : ℚ) (f : ℕ) (lft : ℚ) (trace : List (ℚ × CallOutcome)),
      0 ≤ rt → f < ft → (∀ x ∈ trace, x.1 = T) →
      (ft ≤ f + errCount trace →
        (CircuitBreaker.runTrace ⟨ft, rt, CBState.CLOSED, f, lft⟩ trace).state =
          CBState.OPEN ∧
        (CircuitBreaker.runTrace ⟨ft, rt, CBState.CLOSED, f, lft⟩ trace).failures = ft) ∧
      (f + errCount trace < ft →
        (CircuitBreaker.runTrace ⟨ft, rt, CBState.CLOSED, f, lft⟩ trace).state =
          CBState.CLOSED ∧
        (CircuitBreaker.runTrace ⟨ft, rt, CBState.CLOSED, f, lft⟩ trace).failures =
          f + errCount trace)) := by
  refine ⟨?_, ?_, ?_⟩
  · exact fun cb t h => cb_call_closed_ok cb t h
  · intro cb t o hlt
    by_cases hopen : (cb.check_state t).state = CBState.OPEN
    · exfalso
      rw [cb_call_open cb t o hopen] at hlt
      rw [cb_check_state_failures] at hlt
      exact lt_irrefl _ hlt
    · cases o with
      | error =>
        exfalso
        rw [cb_call_notopen_err cb t hopen] at hlt
        rw [cb_record_failure_failures, cb_check_state_failures] at hlt
        omega
      | ok =>
        by_cases hhalf : (cb.check_state t).state = CBState.HALF_OPEN
        · refine ⟨hhalf, rfl, ?_⟩
          rw [cb_call_notopen_ok cb t hopen, if_pos hhalf]
          rfl
        · exfalso
          rw [cb_call_notopen_ok cb t hopen, if_neg hhalf] at hlt
          rw [cb_check_state_failures] at hlt
          exact lt_irrefl _ hlt
  · intro ft rt T f lft trace hrt hf htimes
    exact cb_run_closed_accum T trace ft rt f lft hrt hf htimes

/-- Witness for C10: a success while CLOSED changes nothing, and from a
fresh breaker with threshold two, a failure, a success and a second failure
at one time leave the breaker OPEN with two recorded failures. -/
theorem C10_failure_accumulation_witness :
    (CircuitBreaker.mk 2 60 CBState.CLOSED 1 0).call 5 CallOutcome.ok =
      (CircuitBreaker.mk 2 60 CBState.CLOSED 1 0, CallResult.returned) ∧
    (CircuitBreaker.runTrace ⟨2, 60, CBState.CLOSED, 0, 0⟩
      [(5, CallOutcome.error), (5, CallOutcome.ok), (5, CallOutcome.error)]).state =
      CBState.OPEN ∧
    (CircuitBreaker.runTrace ⟨2, 60, CBState.CLOSED, 0, 0⟩
      [(5, CallOutcome.error), (5, CallOutcome.ok), (5, CallOutcome.error)]).failures = 2 := by
  refine ⟨C10_failure_accumulation.1 (CircuitBreaker.mk 2 60 CBState.CLOSED 1 0) 5 rfl, ?_, ?_⟩
  · exact (((C10_failure_accumulation.2.2 2 60 5 0 0
      [(5, CallOutcome.error), (5, CallOutcome.ok), (5, CallOutcome.error)]
      (by norm_num) (by norm_num) (by decide)).1) (by decide)).1
  · exact (((C10_failure_accumulation.2.2 2 60 5 0 0
      [(5, CallOutcome.error), (5, CallOutcome.ok), (5, CallOutcome.error)]
      (by norm_num) (by norm_num) (by decide)).1) (by decide)).2

/-- C4 counterexample: the cited breaker has no success threshold.  With the
configuration the repository tests use for the claimed machine, failure
threshold one, recovery timeout sixty, success threshold two, a single
failure and then a single success after the timeout leave the code breaker
CLOSED, while the claimed machine is still HALF_OPEN waiting for a second
success; and with threshold two the code counts non-consecutive failures,
tripping on fail, success, fail, while the claimed machine of consecutive
failures stays CLOSED. -/
theorem C4_counterexample :
    ((CircuitBreaker.init 1 60).runTrace
      [(0, CallOutcome.error), (100, CallOutcome.ok)]).state = CBState.CLOSED ∧
    ((SpecBreaker.init 1 60 2).runTrace
      [(0, CallOutcome.error), (100, CallOutcome.ok)]).state = CBState.HALF_OPEN ∧
    CBState.CLOSED ≠ CBState.HALF_OPEN ∧
    ((CircuitBreaker.init 2 60).runTrace
      [(0, CallOutcome.error), (1, CallOutcome.ok), (2, CallOutcome.error)]).state =
      CBState.OPEN ∧
    ((SpecBreaker.init 2 60 2).runTrace
      [(0, CallOutcome.error), (1, CallOutcome.ok), (2, CallOutcome.error)]).state =
      CBState.CLOSED := by
  refine ⟨by decide, by decide, by decide, by decide, by decide⟩

/-- C4 amended: each failure of a fresh CLOSED breaker increments the
counter and the threshold consecutive failures trip it to OPEN; while OPEN
within the recovery timeout every call is rejected without invoking the
wrapped function, whatever its outcome would be; once the timeout has
strictly elapsed the next call first moves the breaker to HALF_OPEN and is
executed; and in HALF_OPEN a single success returns the breaker to CLOSED
with the failure counter reset to zero, while a single failure returns it
to OPEN.  The code has no success threshold: one success suffices. -/
theorem C4_amended :
    (∀ (ft : ℕ) (rt T : ℚ) (n : ℕ), 0 ≤ rt →
      (n < ft →
        ((CircuitBreaker.init ft rt).runTrace
          (List.replicate n (T, CallOutcome.error))).state = CBState.CLOSED ∧
        ((CircuitBreaker.init ft rt).runTrace
          (List.replicate n (T, CallOutcome.error))).failures = n) ∧
      (ft ≤ n → 0 < ft →
        ((CircuitBreaker.init ft rt).runTrace
          (List.replicate n (T, CallOutcome.error))).state = CBState.OPEN ∧
        ((CircuitBreaker.init ft rt).runTrace
          (List.replicate n (T, CallOutcome.error))).failures = ft)) ∧
    (∀ (cb : CircuitBreaker) (t : ℚ) (o : CallOutcome), cb.state = CBState.OPEN →
      t - cb.last_failure_time ≤ cb.recovery_timeout →
      cb.call t o = (cb, CallResult.rejected)) ∧
    (∀ (cb : CircuitBreaker) (t : ℚ), cb.state = CBState.OPEN →
      cb.recovery_timeout < t - cb.last_failure_time →
      cb.call t CallOutcome.ok =
        (({ cb with state := CBState.HALF_OPEN }).reset, CallResult.returned) ∧
      cb.call t CallOutcome.error =
        (({ cb with state := CBState.HALF_OPEN }).record_failure t,
          CallResult.raised)) ∧
    (∀ (cb : CircuitBreaker) (t : ℚ), cb.state = CBState.HALF_OPEN →
      (cb.call t CallOutcome.ok).1.state = CBState.CLOSED ∧
      (cb.call t CallOutcome.ok).1.failures = 0 ∧
      (cb.call t CallOutcome.error).1.state = CBState.OPEN) := by
  refine ⟨?_, ?_, ?_, ?_⟩
  · intro ft rt T n hrt
    simp only [CircuitBreaker.init]
    have hbase := cb_run_closed_accum T (List.replicate n (T, CallOutcome.error)) ft rt 0 0
    constructor
    · intro hn
      have hacc := hbase hrt (by omega) (by intro x hx; exact (List.eq_of_mem_replicate hx) ▸ rfl)
      have h2 := hacc.2 (by rw [errCount_replicate]; omega)
      refine ⟨h2.1, ?_⟩
      rw [h2.2, errCount_replicate]
      omega
    · intro hn hft
      have hacc := hbase hrt (by omega) (by intro x hx; exact (List.eq_of_mem_replicate hx) ▸ rfl)
      exact hacc.1 (by rw [errCount_replicate]; omega)
  · intro cb t o hst htime
    have hcheck : cb.check_state t = cb := by
      unfold CircuitBreaker.check_state
      rw [if_neg]
      intro hc
      exact absurd hc.2 (not_lt.2 htime)
    rw [cb_call_open cb t o (by rw [hcheck]; exact hst), hcheck]
  · intro cb t hst htime
    have hcheck : cb.check_state t = { cb with state := CBState.HALF_OPEN } := by
      unfold CircuitBreaker.check_state
      rw [if_pos ⟨hst, htime⟩]
    have hnot : ¬ (cb.check_state t).state = CBState.OPEN := by
      rw [hcheck]
      exact fun hc => CBState.noConfusion hc
    constructor
    · rw [cb_call_notopen_ok cb t hnot, hcheck]
      rw [if_pos rfl]
    · rw [cb_call_notopen_err cb t hnot, hcheck]
  · intro cb t hst
    have hcheck : cb.check_state t = cb := cb_check_state_half cb t hst
    have hnot : ¬ (cb.check_state t).state = CBState.OPEN := by
      rw [hcheck, hst]
      exact fun hc => CBState.noConfusion hc
    refine ⟨?_, ?_, ?_⟩
    · rw [cb_call_notopen_ok cb t hnot]
      rw [if_pos (by rw [hcheck]; exact hst)]
      rfl
    · rw [cb_call_notopen_ok cb t hnot]
      rw [if_pos (by rw [hcheck]; exact hst)]
      rfl
    · rw [cb_call_notopen_err cb t hnot, hcheck]
      unfold CircuitBreaker.record_failure
      rw [if_neg]
      · rw [if_pos]
        exact hst
      · intro hc
        rw [hst] at hc
        exact CBState.noConfusion hc.1

/-- Witness for C4 amended at a concrete breaker: threshold three trips
after three failures, an open breaker rejects within the timeout, executes
after it, and one success in HALF_OPEN closes it with the counter reset. -/
theorem C4_amended_witness :
    ((CircuitBreaker.init 3 60).runTrace
      (List.replicate 3 ((0 : ℚ), CallOutcome.error))).state = CBState.OPEN ∧
    (CircuitBreaker.mk 3 60 CBState.OPEN 3 0).call 30 CallOutcome.ok =
      (CircuitBreaker.mk 3 60 CBState.OPEN 3 0, CallResult.rejected) ∧
    (CircuitBreaker.mk 3 60 CBState.HALF_OPEN 3 0).call 100 CallOutcome.ok =
      ((CircuitBreaker.mk 3 60 CBState.HALF_OPEN 3 0).reset, CallResult.returned) ∧
    ((CircuitBreaker.mk 3 60 CBState.HALF_OPEN 3 0).call 100 CallOutcome.ok).1.failures = 0 := by
  refine ⟨?_, ?_, ?_, ?_⟩
  · exact ((C4_amended.1 3 60 0 3 (by norm_num)).2 (by norm_num) (by norm_num)).1
  · exact C4_amended.2.1 (CircuitBreaker.mk 3 60 CBState.OPEN 3 0) 30 CallOutcome.ok rfl
      (by norm_num)
  · have h := C4_amended.2.2.2 (CircuitBreaker.mk 3 60 CBState.HALF_OPEN 3 0) 100 rfl
    rw [cb_call_notopen_ok _ _ (by rw [cb_check_state_half _ _ rfl]; exact fun hc => CBState.noConfusion hc)]
    rw [cb_check_state_half _ _ rfl, if_pos rfl]
  · exact (C4_amended.2.2.2 (CircuitBreaker.mk 3 60 CBState.HALF_OPEN 3 0) 100 rfl).2.1


theorem validate_ok_parts (eng : EnhancedTradingEngine) (db : DB) (pid : ℕ)
    (symbol side : String) (q p : ℚ)
    (h : (eng.validate_trade db pid symbol side q p).1 = true) :
    ∃ sym pd qd, SymbolValidator.validate symbol = Except.ok sym ∧
      PriceValidator.validate p = Except.ok pd ∧
      QuantityValidator.validate q = Except.ok qd := by
  unfold EnhancedTradingEngine.validate_trade at h
  by_cases hside : side ≠ "buy" ∧ side ≠ "sell"
  · rw [if_pos hside] at h
    simp at h
  · rw [if_neg hside] at h
    cases hsym : SymbolValidator.validate symbol with
    | error m => rw [hsym] at h; simp at h
    | ok sym =>
      rw [hsym] at h
      cases hp : PriceValidator.validate p with
      | error m => rw [hp] at h; simp at h
      | ok pd =>
        rw [hp] at h
        cases hq : QuantityValidator.validate q with
        | error m => rw [hq] at h; simp at h
        | ok qd => exact ⟨sym, pd, qd, rfl, rfl, rfl⟩

/-- C1: for every execute_trade call that passes validation and every
position closure, an exception injected at any site inside the
lock-protected critical section leaves the committed database exactly as it
was, restores the session to it, and surfaces as an error: the balance, the
total value and the positions are untouched and no trade row survives,
because atomic_trade_lock and atomic_transaction roll the transaction back
before re-raising. -/
theorem C1_atomic_rollback :
    (∀ (eng : EnhancedTradingEngine) (s : Session) (pid : ℕ) (symbol side : String)
      (q p : ℚ) (sl tp : Option ℚ) (x : FailPoint),
      (eng.validate_trade s.pending pid symbol side q p).1 = true →
      (eng.execute_trade s pid symbol side q p sl tp (some x)).1.committed =
        s.committed ∧
      (eng.execute_trade s pid symbol side q p sl tp (some x)).1.pending =
        s.committed ∧
      ∃ e, (eng.execute_trade s pid symbol side q p sl tp (some x)).2 =
        Except.error e) ∧
    (∀ (s : Session) (position_id : ℕ) (reason : String) (x : CloseFail),
      (StopLossTakeProfitManager.close_position s position_id reason (some x)).1.committed =
        s.committed ∧
      (StopLossTakeProfitManager.close_position s position_id reason (some x)).1.pending =
        s.committed ∧
      ∃ e, (StopLossTakeProfitManager.close_position s position_id reason (some x)).2 =
        Except.error e) := by
  constructor
  · intro eng s pid symbol side q p sl tp x hv
    obtain ⟨sym, pd, qd, hsym, hp, hq⟩ := validate_ok_parts eng s.pending pid symbol side q p hv
    have hred : eng.execute_trade s pid symbol side q p sl tp (some x) = rollbackErr s := by
      unfold EnhancedTradingEngine.execute_trade
      dsimp only
      rw [if_pos hv, hsym, hp, hq]
      cases x <;> rfl
    rw [hred]
    exact ⟨rfl, rfl, ⟨_, rfl⟩⟩
  · intro s position_id reason x
    have hred : StopLossTakeProfitManager.close_position s position_id reason (some x) =
        closeRollback s := by
      unfold StopLossTakeProfitManager.close_position
      cases hf : s.pending.positions.find? (fun p => p.id == position_id) with
      | none => rfl
      | some locked =>
        dsimp only
        by_cases hpid : s.pending.portfolio.id ≠ locked.portfolio_id
        · rw [if_pos hpid]
        · rw [if_neg hpid]
          cases x <;> rfl
    rw [hred]
    exact ⟨rfl, rfl, ⟨_, rfl⟩⟩

/-- Witness for C1: a failure injected after the balance update of a buy
leaves the committed database unchanged, and a failure injected right after
the trade insert of a stop-loss closure leaves no orphaned trade row. -/
theorem C1_atomic_rollback_witness :
    (engFixture.execute_trade sQuarter 1 "AAPL" "buy" 1 (3 / 4) none none
      (some FailPoint.afterBalance)).1.committed = dbQuarter ∧
    (engFixture.execute_trade sQuarter 1 "AAPL" "buy" 1 (3 / 4) none none
      (some FailPoint.afterBalance)).1.pending = dbQuarter ∧
    (StopLossTakeProfitManager.close_position sQuarterTwo 1 "stop_loss"
      (some CloseFail.afterTradeInsert)).1.committed = dbQuarterTwo ∧
    (StopLossTakeProfitManager.close_position sQuarterTwo 1 "stop_loss"
      (some CloseFail.afterTradeInsert)).1.committed.trades = [] := by
  have h1 := C1_atomic_rollback.1 engFixture sQuarter 1 "AAPL" "buy" 1 (3 / 4) none none
    FailPoint.afterBalance (by decide)
  have h2 := C1_atomic_rollback.2 sQuarterTwo 1 "stop_loss" CloseFail.afterTradeInsert
  exact ⟨h1.1, h1.2.1, h2.1, by rw [h2.1]; rfl⟩

theorem tradeStepTotalValue_balance (db : DB) (pid : ℕ) :
    (tradeStepTotalValue db pid).portfolio.balance = db.portfolio.balance := rfl

theorem tradeStepUpsert_portfolio (db : DB) (pid : ℕ) (sym side : String)
    (qd pd : ℚ) (sl tp : Option ℚ) :
    (tradeStepUpsert db pid sym side qd pd sl tp).1.portfolio = db.portfolio := by
  unfold tradeStepUpsert
  cases h : db.openPosition pid sym with
  | some pos =>
    dsimp only
    split <;> rfl
  | none =>
    dsimp only
    split <;> rfl

theorem tradeStepBalance_balance (db : DB) (side : String) (qd pd : ℚ) :
    (tradeStepBalance db side qd pd).portfolio.balance =
      floatOfRat (if side = "buy" then dSub (pyRepr db.portfolio.balance) (dMul qd pd)
        else dAdd (pyRepr db.portfolio.balance) (dMul qd pd)) := rfl

theorem commitTrade_balance (db0 : DB) (pid : ℕ) (sym side : String) (qd pd : ℚ)
    (sl tp : Option ℚ) :
    (commitTrade db0 pid sym side qd pd sl tp).1.portfolio.balance =
      floatOfRat (if side = "buy" then dSub (pyRepr db0.portfolio.balance) (dMul qd pd)
        else dAdd (pyRepr db0.portfolio.balance) (dMul qd pd)) := by
  show (tradeStepTotalValue
      (tradeStepUpsert (tradeStepBalance db0 side qd pd) pid sym side qd pd sl tp).1
      pid).portfolio.balance = _
  rw [tradeStepTotalValue_balance, tradeStepUpsert_portfolio, tradeStepBalance_balance]

theorem execute_trade_none_ok (eng : EnhancedTradingEngine) (s : Session) (pid : ℕ)
    (symbol side : String) (q p : ℚ) (sl tp : Option ℚ) (sym : String) (pd qd : ℚ)
    (hv : (eng.validate_trade s.pending pid symbol side q p).1 = true)
    (hsym : SymbolValidator.validate symbol = Except.ok sym)
    (hp : PriceValidator.validate p = Except.ok pd)
    (hq : QuantityValidator.validate q = Except.ok qd) :
    eng.execute_trade s pid symbol side q p sl tp none =
      (⟨(commitTrade s.pending pid sym side qd pd sl tp).1,
        (commitTrade s.pending pid sym side qd pd sl tp).1⟩,
       Except.ok ⟨sym, side, floatOfRat qd, floatOfRat pd,
         (commitTrade s.pending pid sym side qd pd sl tp).2,
         (commitTrade s.pending pid sym side qd pd sl tp).1.portfolio.balance,
         (commitTrade s.pending pid sym side qd pd sl tp).1.portfolio.total_value⟩) := by
  unfold EnhancedTradingEngine.execute_trade
  dsimp only
  rw [if_pos hv, hsym, hp, hq]
  rfl

theorem execute_trade_invalid (eng : EnhancedTradingEngine) (s : Session) (pid : ℕ)
    (symbol side : String) (q p : ℚ) (sl tp : Option ℚ) (fail : Option FailPoint)
    (hv : (eng.validate_trade s.pending pid symbol side q p).1 = false) :
    eng.execute_trade s pid symbol side q p sl tp fail =
      (s, Except.error ⟨"TRADE_VALIDATION_FAILED",
        (eng.validate_trade s.pending pid symbol side q p).2⟩) := by
  unfold EnhancedTradingEngine.execute_trade
  dsimp only
  rw [if_neg (by rw [hv]; exact fun hc => Bool.noConfusion hc)]

theorem runTrades_nil (eng : EnhancedTradingEngine) (pid : ℕ) (s : Session) :
    runTrades eng pid s [] = (s, []) := rfl

theorem runTrades_cons (eng : EnhancedTradingEngine) (pid : ℕ) (s : Session)
    (i : TradeInstr) (rest : List TradeInstr) :
    runTrades eng pid s (i :: rest) =
      ((runTrades eng pid
          (eng.execute_trade s pid i.symbol i.side i.quantity i.price none none none).1
          rest).1,
        (match (eng.execute_trade s pid i.symbol i.side i.quantity i.price none none
            none).2 with
          | Except.ok _ => true
          | Except.error _ => false) ::
        (runTrades eng pid
          (eng.execute_trade s pid i.symbol i.side i.quantity i.price none none none).1
          rest).2) := rfl

theorem ledgerDelta_nil : ledgerDelta [] = 0 := rfl

theorem ledgerDelta_cons (i : TradeInstr) (rest : List TradeInstr) :
    ledgerDelta (i :: rest) = signedCost i + ledgerDelta rest := by
  unfold ledgerDelta
  simp

theorem exactBalances_cons (b0 : ℚ) (i : TradeInstr) (rest : List TradeInstr) :
    exactBalances b0 (i :: rest) =
      (b0 + signedCost i) :: exactBalances (b0 + signedCost i) rest := rfl

/-- C2 amended: over any run of execute_trade calls on one portfolio that
all report success, provided the initial stored balance is its own repr and
every exact running balance survives the decimal context, the binary64
store and the repr read-back unchanged, the final stored balance equals the
initial balance minus the validated buy costs plus the validated sell
proceeds, exactly. -/
theorem C2_amended (eng : EnhancedTradingEngine) (pid : ℕ)
    (instrs : List TradeInstr) :
    ∀ (s : Session), s.pending = s.committed →
      pyRepr s.committed.portfolio.balance = s.committed.portfolio.balance →
      (∀ b ∈ exactBalances s.committed.portfolio.balance instrs, LosslessVal b) →
      (∀ r ∈ (runTrades eng pid s instrs).2, r = true) →
      (runTrades eng pid s instrs).1.committed.portfolio.balance =
        s.committed.portfolio.balance + ledgerDelta instrs := by
  induction instrs with
  | nil =>
    intro s _ _ _ _
    rw [runTrades_nil, ledgerDelta_nil]
    simp
  | cons i rest ih =>
    intro s hsync hb0 hchain hok
    have hok0 : (match (eng.execute_trade s pid i.symbol i.side i.quantity i.price
        none none none).2 with
        | Except.ok _ => true
        | Except.error _ => false) = true := by
      refine hok _ ?_
      rw [runTrades_cons]
      exact List.mem_cons_self _ _
    have hv : (eng.validate_trade s.pending pid i.symbol i.side i.quantity
        i.price).1 = true := by
      by_contra hfalse
      have hv2 : (eng.validate_trade s.pending pid i.symbol i.side i.quantity
          i.price).1 = false := by
        cases hcase : (eng.validate_trade s.pending pid i.symbol i.side i.quantity
            i.price).1
        · rfl
        · exact absurd hcase hfalse
      rw [execute_trade_invalid eng s pid i.symbol i.side i.quantity i.price
        none none none hv2] at hok0
      simp at hok0
    obtain ⟨sym, pd, qd, hsym, hp, hq⟩ :=
      validate_ok_parts eng s.pending pid i.symbol i.side i.quantity i.price hv
    have hex := execute_trade_none_ok eng s pid i.symbol i.side i.quantity i.price
      none none sym pd qd hv hsym hp hq
    have hcost : signedCost i = if i.side = "buy" then -(dMul qd pd) else dMul qd pd := by
      unfold signedCost
      rw [hq, hp]
    have hll : LosslessVal (s.committed.portfolio.balance + signedCost i) := by
      refine hchain _ ?_
      rw [exactBalances_cons]
      exact List.mem_cons_self _ _
    have hbal : (commitTrade s.pending pid sym i.side qd pd none none).1.portfolio.balance =
        s.committed.portfolio.balance + signedCost i := by
      have hll2 := hll
      rw [hcost] at hll2
      rw [commitTrade_balance, hsync, hb0, hcost]
      by_cases hside : i.side = "buy"
      · rw [if_pos hside] at hll2 ⊢
        unfold dSub
        rw [show s.committed.portfolio.balance - dMul qd pd =
          s.committed.portfolio.balance + -dMul qd pd from by ring]
        rw [hll2.1, hll2.2.1]
        rw [if_pos hside]
      · rw [if_neg hside] at hll2 ⊢
        unfold dAdd
        rw [hll2.1, hll2.2.1]
        rw [if_neg hside]
    have hb0n : pyRepr (commitTrade s.pending pid sym i.side qd pd
        none none).1.portfolio.balance =
        (commitTrade s.pending pid sym i.side qd pd none none).1.portfolio.balance := by
      rw [hbal]
      exact hll.2.2
    have hchainrest : ∀ b ∈ exactBalances (commitTrade s.pending pid sym i.side qd pd
        none none).1.portfolio.balance rest, LosslessVal b := by
      rw [hbal]
      intro b hb
      refine hchain b ?_
      rw [exactBalances_cons]
      exact List.mem_cons_of_mem _ hb
    have htail : ∀ r ∈ (runTrades eng pid
        (⟨(commitTrade s.pending pid sym i.side qd pd none none).1,
          (commitTrade s.pending pid sym i.side qd pd none none).1⟩ : Session)
        rest).2, r = true := by
      intro r hr
      refine hok r ?_
      rw [runTrades_cons, hex]
      exact List.mem_cons_of_mem _ hr
    have hih := ih ⟨(commitTrade s.pending pid sym i.side qd pd none none).1,
      (commitTrade s.pending pid sym i.side qd pd none none).1⟩ rfl hb0n hchainrest htail
    rw [runTrades_cons, hex]
    dsimp only
    rw [hih]
    show (commitTrade s.pending pid sym i.side qd pd none none).1.portfolio.balance +
      ledgerDelta rest = _
    rw [hbal, ledgerDelta_cons]
    ring

/-- C2 counterexample: with a stored balance of ten to the fifteenth a buy
of one share at one cent reports success, yet the stored balance is
unchanged: the exact Decimal result 999999999999999.99 rounds back to ten
to the fifteenth when stored through the float cast, so the stored balance
does not equal the initial balance minus the buy cost and binary floating
point drift has entered the ledger. -/
theorem C2_counterexample :
    exOk (engFixture.execute_trade sDrift 1 "AAPL" "buy" 1 (1 / 100)
      none none none).2 = true ∧
    (engFixture.execute_trade sDrift 1 "AAPL" "buy" 1 (1 / 100)
      none none none).1.committed.portfolio.balance = 1000000000000000 ∧
    (engFixture.execute_trade sDrift 1 "AAPL" "buy" 1 (1 / 100)
      none none none).1.committed.portfolio.balance ≠
      1000000000000000 - 1 * (1 / 100) := by
  set_option maxRecDepth 10000 in
  refine ⟨by decide, by decide, by decide⟩

/-- Witness for C2 amended: a buy of two at 100.25 and a sell of one at
50.25 from a balance of ten thousand, all values lossless, land exactly on
the ledger sum 9849.75. -/
theorem C2_amended_witness :
    (runTrades engFixture 1 sLedger instrsLedger).1.committed.portfolio.balance =
      10000 + ledgerDelta instrsLedger ∧
    (10000 : ℚ) + ledgerDelta instrsLedger = 39399 / 4 := by
  constructor
  · exact C2_amended engFixture 1 instrsLedger sLedger rfl (by decide) (by decide)
      (by decide)
  · decide

theorem openPosition_tradeStepBalance (db : DB) (side : String) (qd pd : ℚ)
    (pid : ℕ) (sym : String) :
    (tradeStepBalance db side qd pd).openPosition pid sym =
      db.openPosition pid sym := rfl

theorem commitTrade_positions (db0 : DB) (pid : ℕ) (sym side : String) (qd pd : ℚ)
    (sl tp : Option ℚ) :
    (commitTrade db0 pid sym side qd pd sl tp).1.positions =
      (tradeStepUpsert (tradeStepBalance db0 side qd pd) pid sym side qd pd
        sl tp).1.positions := rfl

theorem commitTrade_pnl (db0 : DB) (pid : ℕ) (sym side : String) (qd pd : ℚ)
    (sl tp : Option ℚ) :
    (commitTrade db0 pid sym side qd pd sl tp).2 =
      (tradeStepUpsert (tradeStepBalance db0 side qd pd) pid sym side qd pd
        sl tp).2 := rfl

theorem tradeStepUpsert_buy (db : DB) (pid : ℕ) (sym : String) (qd pd : ℚ)
    (pos : PositionR) (hfound : db.openPosition pid sym = some pos) :
    tradeStepUpsert db pid sym "buy" qd pd none none =
      ({ db with positions := db.positions.map (fun q0 =>
          if q0.id = pos.id then
            { pos with
              quantity := floatOfRat (dAdd (pyRepr pos.quantity) qd),
              average_price := floatOfRat (dDiv
                (dAdd (dMul (pyRepr pos.quantity) (pyRepr pos.average_price))
                  (dMul qd pd))
                (dAdd (pyRepr pos.quantity) qd)),
              current_price := floatOfRat pd }
          else q0) }, none) := by
  unfold tradeStepUpsert
  rw [hfound]
  dsimp only
  rw [if_pos rfl]
  unfold applyProtectiveStops
  dsimp only
  rfl

theorem tradeStepUpsert_sell (db : DB) (pid : ℕ) (sym : String) (qd pd : ℚ)
    (pos : PositionR) (hfound : db.openPosition pid sym = some pos) :
    tradeStepUpsert db pid sym "sell" qd pd none none =
      ({ db with positions := db.positions.map (fun q0 =>
          if q0.id = pos.id then
            (if floatOfRat (dSub (pyRepr pos.quantity) qd) ≤ closedEpsilon then
              { pos with
                quantity := floatOfRat (dSub (pyRepr pos.quantity) qd),
                status := "closed" }
            else { pos with quantity := floatOfRat (dSub (pyRepr pos.quantity) qd) })
          else q0) },
        some (floatOfRat (dMul (dSub pd (pyRepr pos.average_price)) qd))) := by
  unfold tradeStepUpsert
  rw [hfound]
  dsimp only
  rw [if_neg (by decide)]

/-- C3 counterexample: buying two at a fifth into an open position of one
at a tenth reports success, but the stored average price is not the
volume-weighted average one sixth: one sixth is not a finite decimal, so
the decimal context rounds the division to twenty-eight digits and the
float store rounds again. -/
theorem C3_counterexample :
    exOk (engFixture.execute_trade sThird 1 "AAPL" "buy" 2 (1 / 5)
      none none none).2 = true ∧
    ((engFixture.execute_trade sThird 1 "AAPL" "buy" 2 (1 / 5)
      none none none).1.committed.positions.find? (fun pp => pp.id == 1)).map
        PositionR.average_price ≠ some ((1 * (1 / 10) + 2 * (1 / 5)) / (1 + 2)) ∧
    ((1 : ℚ) * (1 / 10) + 2 * (1 / 5)) / (1 + 2) = 1 / 6 := by
  set_option maxRecDepth 10000 in
  refine ⟨by decide, by decide, by decide⟩

/-- C3 amended: on a successful buy into an existing open position with
lossless figures, the position quantity becomes the old quantity plus the
validated quantity and the average price becomes the volume-weighted
average exactly; on a successful sell, the recorded trade pnl is the price
minus the average price times the validated quantity, the position quantity
drops by the sold quantity, and the stored status is closed exactly when
the residual stored quantity is at most the fixed epsilon, the binary64
value of one ten-thousandth.  The exactness hypotheses discharge the
decimal context and float store conversions the source applies. -/
theorem C3_amended :
    (∀ (eng : EnhancedTradingEngine) (s : Session) (pid : ℕ) (symbol : String)
      (q p : ℚ) (sym : String) (pd qd : ℚ) (pos : PositionR),
      (eng.validate_trade s.pending pid symbol "buy" q p).1 = true →
      SymbolValidator.validate symbol = Except.ok sym →
      PriceValidator.validate p = Except.ok pd →
      QuantityValidator.validate q = Except.ok qd →
      s.pending.openPosition pid sym = some pos →
      pyRepr pos.quantity = pos.quantity →
      pyRepr pos.average_price = pos.average_price →
      round28 (pos.quantity + qd) = pos.quantity + qd →
      floatOfRat (pos.quantity + qd) = pos.quantity + qd →
      round28 (pos.quantity * pos.average_price) = pos.quantity * pos.average_price →
      round28 (qd * pd) = qd * pd →
      round28 (pos.quantity * pos.average_price + qd * pd) =
        pos.quantity * pos.average_price + qd * pd →
      round28 ((pos.quantity * pos.average_price + qd * pd) / (pos.quantity + qd)) =
        (pos.quantity * pos.average_price + qd * pd) / (pos.quantity + qd) →
      floatOfRat ((pos.quantity * pos.average_price + qd * pd) / (pos.quantity + qd)) =
        (pos.quantity * pos.average_price + qd * pd) / (pos.quantity + qd) →
      (eng.execute_trade s pid symbol "buy" q p none none none).1.committed.positions =
        s.pending.positions.map (fun q0 =>
          if q0.id = pos.id then
            { pos with
              quantity := pos.quantity + qd,
              average_price :=
                (pos.quantity * pos.average_price + qd * pd) / (pos.quantity + qd),
              current_price := floatOfRat pd }
          else q0)) ∧
    (∀ (eng : EnhancedTradingEngine) (s : Session) (pid : ℕ) (symbol : String)
      (q p : ℚ) (sym : String) (pd qd : ℚ) (pos : PositionR),
      (eng.validate_trade s.pending pid symbol "sell" q p).1 = true →
      SymbolValidator.validate symbol = Except.ok sym →
      PriceValidator.validate p = Except.ok pd →
      QuantityValidator.validate q = Except.ok qd →
      s.pending.openPosition pid sym = some pos →
      pyRepr pos.quantity = pos.quantity →
      pyRepr pos.average_price = pos.average_price →
      round28 (pos.quantity - qd) = pos.quantity - qd →
      floatOfRat (pos.quantity - qd) = pos.quantity - qd →
      round28 (pd - pos.average_price) = pd - pos.average_price →
      round28 ((pd - pos.average_price) * qd) = (pd - pos.average_price) * qd →
      floatOfRat ((pd - pos.average_price) * qd) = (pd - pos.average_price) * qd →
      ((eng.execute_trade s pid symbol "sell" q p none none none).1.committed.positions =
        s.pending.positions.map (fun q0 =>
          if q0.id = pos.id then
            (if pos.quantity - qd ≤ closedEpsilon then
              { pos with quantity := pos.quantity - qd, status := "closed" }
            else { pos with quantity := pos.quantity - qd })
          else q0) ∧
       ∃ r, (eng.execute_trade s pid symbol "sell" q p none none none).2 =
          Except.ok r ∧ r.trade_pnl = some ((pd - pos.average_price) * qd))) := by
  constructor
  · intro eng s pid symbol q p sym pd qd pos hv hsym hp hq hfound hr1 hr2 hrAdd hfAdd
      hrMul1 hrMul2 hrSum hrDiv hfDiv
    rw [execute_trade_none_ok eng s pid symbol "buy" q p none none sym pd qd
      hv hsym hp hq]
    show (commitTrade s.pending pid sym "buy" qd pd none none).1.positions = _
    rw [commitTrade_positions]
    rw [tradeStepUpsert_buy _ _ _ _ _ _
      (by rw [openPosition_tradeStepBalance]; exact hfound)]
    show (tradeStepBalance s.pending "buy" qd pd).positions.map _ = _
    simp only [dAdd, dMul, dDiv, hr1, hr2, hrMul1, hrMul2, hrSum, hrAdd, hrDiv,
      hfAdd, hfDiv]
    rfl
  · intro eng s pid symbol q p sym pd qd pos hv hsym hp hq hfound hr1 hr2 hrSub hfSub
      hrDiff hrMul hfMul
    rw [execute_trade_none_ok eng s pid symbol "sell" q p none none sym pd qd
      hv hsym hp hq]
    constructor
    · show (commitTrade s.pending pid sym "sell" qd pd none none).1.positions = _
      rw [commitTrade_positions]
      rw [tradeStepUpsert_sell _ _ _ _ _ _
        (by rw [openPosition_tradeStepBalance]; exact hfound)]
      show (tradeStepBalance s.pending "sell" qd pd).positions.map _ = _
      simp only [dSub, hr1, hr2, hrSub, hfSub]
      rfl
    · refine ⟨_, rfl, ?_⟩
      show (commitTrade s.pending pid sym "sell" qd pd none none).2 = _
      rw [commitTrade_pnl]
      rw [tradeStepUpsert_sell _ _ _ _ _ _
        (by rw [openPosition_tradeStepBalance]; exact hfound)]
      simp only [dSub, dMul, hr2, hrDiff, hrMul, hfMul]

/-- Witness for C3: buying one at three quarters into a position of one at
a quarter lands the average exactly on one half, and selling one at three
quarters out of a position of two at a quarter records pnl one half and
leaves the position open with quantity one. -/
theorem C3_amended_witness :
    ((engFixture.execute_trade sQuarter 1 "AAPL" "buy" 1 (3 / 4)
      none none none).1.committed.positions =
      sQuarter.pending.positions.map (fun q0 =>
        if q0.id = posQuarter.id then
          { posQuarter with
            quantity := posQuarter.quantity + 1,
            average_price := (posQuarter.quantity * posQuarter.average_price +
              1 * (3 / 4)) / (posQuarter.quantity + 1),
            current_price := floatOfRat (3 / 4) }
        else q0)) ∧
    (∃ r, (engFixture.execute_trade sQuarterTwo 1 "AAPL" "sell" 1 (3 / 4)
      none none none).2 = Except.ok r ∧
      r.trade_pnl = some ((3 / 4 - posQuarterTwo.average_price) * 1)) := by
  constructor
  · exact C3_amended.1 engFixture sQuarter 1 "AAPL" 1 (3 / 4) "AAPL" (3 / 4) 1
      posQuarter (by decide) (by decide) (by decide) (by decide) (by decide) (by decide) (by decide) (by decide)
      (by decide) (by decide) (by decide) (by decide) (by decide) (by decide)
  · exact (C3_amended.2 engFixture sQuarterTwo 1 "AAPL" 1 (3 / 4) "AAPL" (3 / 4) 1
      posQuarterTwo (by decide) (by decide) (by decide) (by decide) (by decide) (by decide) (by decide) (by decide)
      (by decide) (by decide) (by decide) (by decide)).2

end Pythia
